import Mathlib

/-!
The program weaviate-go-poc: embedding-backed ingestion and query.

A shallow embedding of `src/main.go` and `src/huggingface.go`.

Every call that leaves the process (environment file, file system, HTTP,
store operations) is an oracle of a `World`.  An oracle sees the
full history of effects performed so far, so a service may answer the same
request differently at different times.  Effects are appended to a trace of
`Event`s in program order; the trace is the state that is threaded through.

Go's `(value, error)` results are `Except GoError value`; `log.Fatal` and a
runtime panic are the two abnormal `Outcome`s.
-/

namespace WeaviatePoc

/-! ## Data model -/

/-- A Go `error`, observed through its `Error()` text. -/
structure GoError where
  msg : String
  deriving DecidableEq, Repr

/-- A `float32`, kept as its bit pattern: the program never computes with one. -/
structure F32 where
  bits : Nat
  deriving DecidableEq, Repr

/-- The `PointBreakQuote` struct of `huggingface.go`. -/
structure PointBreakQuote where
  Character : String
  Quote : String
  Vector : List F32
  deriving DecidableEq, Repr

/-- The `FeatureExtractionOptions` struct of `huggingface.go`. -/
structure FeatureExtractionOptions where
  UseCache : Bool
  WaitForModel : Bool
  deriving DecidableEq, Repr

/-- The `FeatureExtractionPayload` struct of `huggingface.go`. -/
structure FeatureExtractionPayload where
  Inputs : String
  Options : FeatureExtractionOptions
  deriving DecidableEq, Repr

/-- The fields of `models.Object` that `buildObjectBatch` sets.  The Go map of
properties is kept as its key/value pairs in the order of the literal. -/
structure Object where
  Class : String
  Properties : List (String × String)
  Vector : List F32
  deriving DecidableEq, Repr

/-- An `http.Request` as `vectorizeText` builds it. -/
structure Request where
  Method : String
  URL : String
  Body : String
  Header : List (String × String)
  deriving DecidableEq, Repr

/-- The fields of an `http.Response` that matter to a caller. -/
structure Response where
  Status : String
  StatusCode : Nat
  Body : String
  deriving DecidableEq, Repr

/-- The `weaviate.Config` literal of `main`. -/
structure Config where
  Host : String
  Scheme : String
  ApiKey : String
  deriving DecidableEq, Repr

/-- A store client; `none` of `Option Client` is the nil pointer. -/
structure Client where
  cfg : Config
  deriving DecidableEq, Repr

/-- A `graphql.Field` with its sub-fields, two levels deep as `main` uses it. -/
structure Field where
  Name : String
  Fields : List String
  deriving DecidableEq, Repr

/-- The GraphQL `Get` request assembled by the builder chain of `main`.
`Limit` is `none` when `WithLimit` is not called. -/
structure GetRequest where
  ClassName : String
  Fields : List Field
  NearVector : List F32
  Limit : Option Nat
  deriving DecidableEq, Repr

/-- One entry of `GraphQLResponse.Errors`. -/
structure GraphQLError where
  Message : String
  deriving DecidableEq, Repr

/-- The `models.GraphQLResponse`.  `Errors` is a slice of pointers: `none` is
the nil slice, and an entry `none` is a nil pointer in the slice. -/
structure GraphQLResponse where
  Data : String
  Errors : Option (List (Option GraphQLError))
  deriving DecidableEq, Repr

/-- The per-object outcome list the store returns for a batch. -/
structure BatchResponse where
  perObject : List (Option String)
  deriving DecidableEq, Repr

/-- One raw record of a CSV file as `encoding/csv` tokenises it: either its
fields, with the line it starts on, or the fields read before a parse error
together with that error. -/
inductive CsvRecord where
  | fields (line : Nat) (fs : List String)
  | bad (readSoFar : List String) (err : GoError)
  deriving DecidableEq, Repr

/-- What the program writes to standard output, by value rather than by its
rendered text. -/
inductive Printed where
  | text (s : String)
  | err (e : GoError)
  | headers (hs : List String)
  | quotes (qs : List PointBreakQuote)
  | batchResult (r : BatchResponse)
  | queryResult (r : GraphQLResponse)
  deriving DecidableEq, Repr

/-- An effect performed by the program. -/
inductive Event where
  | godotenvLoad
  | newClient (cfg : Config)
  | osOpen (path : String)
  | stdout (p : Printed)
  | httpDo (req : Request)
  | classCreate (cls : String)
  | objectsBatch (objs : List Object)
  | graphqlGet (q : GetRequest)
  deriving DecidableEq, Repr

/-- How a piece of the program ends: normally with a value, by `log.Fatal`
(message logged, exit status 1), or by a runtime panic. -/
inductive Outcome (α : Type) where
  | ok (a : α)
  | fatal (msg : String)
  | crashed (msg : String)
  deriving DecidableEq, Repr

/-- The outcome of a piece of the program and the trace after it. -/
structure Run (α : Type) where
  outcome : Outcome α
  trace : List Event
  deriving DecidableEq, Repr

/-- The environment of the process.  Each oracle receives the trace before the
call it answers. -/
structure World where
  /-- Result of `godotenv.Load()`. -/
  godotenvLoad : List Event → Option GoError
  /-- Result of `os.Getenv`. -/
  getenv : List Event → String → String
  /-- Result of `os.Open` followed by tokenising the file as CSV. -/
  osOpen : List Event → String → Except GoError (List CsvRecord)
  /-- JSON string literal for a Go string, as `encoding/json` writes it. -/
  jsonString : String → String
  /-- Result of `http.Client.Do`. -/
  httpDo : List Event → Request → Except GoError Response
  /-- Result of decoding a response body into `[]float32`. -/
  jsonDecode : String → Except GoError (List F32)
  /-- Error result of the schema class creator. -/
  classCreate : List Event → String → Option GoError
  /-- Result of the objects batcher. -/
  objectsBatch : List Event → List Object → Except GoError BatchResponse
  /-- Result of the GraphQL `Get` query. -/
  graphqlGet : List Event → GetRequest → Except GoError GraphQLResponse

/-! ## huggingface.go -/

def modelId : String := "sentence-transformers/all-MiniLM-L6-v2"

def hg_api : String :=
  "https://api-inference.huggingface.co/pipeline/feature-extraction/" ++ modelId

/-- The error `fmt.Errorf(format, err)` builds when `format` is `lead` followed
by one `%v`: a fresh error whose text is `lead` and then `err.Error()`. -/
def fmtErrorf (lead : String) (err : GoError) : GoError :=
  ⟨lead ++ err.msg⟩

/-- The text `encoding/json` writes for a Go `bool`. -/
def jsonBool (b : Bool) : String := if b then "true" else "false"

/-- The call `json.Marshal(payload)`.  Marshalling a struct of a string and two
booleans has no failing case, so the result is always `ok`. -/
def jsonMarshal (w : World) (payload : FeatureExtractionPayload) : Except GoError String :=
  .ok ("\x7b\"inputs\":" ++ w.jsonString payload.Inputs
    ++ ",\"options\":\x7b\"use_cache\":" ++ jsonBool payload.Options.UseCache
    ++ ",\"wait_for_model\":" ++ jsonBool payload.Options.WaitForModel ++ "\x7d\x7d")

/-- The call `http.NewRequest(method, url, body)`.  It is only called with the
method `POST` and the constant, well-formed URL `hg_api`, for which it
succeeds. -/
def httpNewRequest (method url body : String) : Except GoError Request :=
  .ok { Method := method, URL := url, Body := body, Header := [] }

/-- The method `req.Header.Set(key, value)`. -/
def Request.headerSet (req : Request) (key value : String) : Request :=
  { req with Header := (req.Header.filter fun kv => kv.1 != key) ++ [(key, value)] }

def vectorizeText (w : World) (inputs : String) (h : List Event) :
    Except GoError (List F32) × List Event :=
  let payload : FeatureExtractionPayload :=
    { Inputs := inputs, Options := { UseCache := true, WaitForModel := true } }
  match jsonMarshal w payload with
  | .error err => (.error (fmtErrorf "error marshalling payload: " err), h)
  | .ok jsonStr =>
    match httpNewRequest "POST" hg_api jsonStr with
    | .error err => (.error (fmtErrorf "error creating request: " err), h)
    | .ok req0 =>
      let req1 := req0.headerSet "Authorization" ("Bearer " ++ w.getenv h "HG_TOKEN")
      let req := req1.headerSet "Content-Type" "application/json"
      let h1 := h ++ [Event.httpDo req]
      match w.httpDo h req with
      | .error err => (.error (fmtErrorf "error making request: " err), h1)
      | .ok resp =>
        let h2 := h1 ++ [Event.stdout (.text
          ("Hugging Face Feature Extraction Response Status: " ++ resp.Status))]
        match w.jsonDecode resp.Body with
        | .error err => (.error (fmtErrorf "error decoding response body: " err), h2)
        | .ok data => (.ok data, h2)

/-! ## encoding/csv, as `fromCSVToQuotes` uses it -/

/-- The sentinel `io.EOF`. -/
def ioEOF : GoError := ⟨"EOF"⟩

/-- The `csv.ParseError` wrapping `csv.ErrFieldCount` for a record starting on
line `line`. -/
def errFieldCount (line : Nat) : GoError :=
  ⟨"record on line " ++ toString line ++ ": wrong number of fields"⟩

/-- An error of `Reader.Read`: the sentinel `io.EOF`, which `ReadAll` tells
apart by identity, or any other error. -/
inductive ReadError where
  | eof
  | failed (err : GoError)
  deriving DecidableEq, Repr

/-- The Go `error` value behind a `ReadError`. -/
def ReadError.toError : ReadError → GoError
  | .eof => ioEOF
  | .failed err => err

/-- A `csv.Reader`: the records not yet read and the `FieldsPerRecord`
setting.  The setting is never negative in this program. -/
structure CsvReader where
  FieldsPerRecord : Nat
  pending : List CsvRecord
  deriving DecidableEq, Repr

/-- The call `csv.NewReader(file)`: `FieldsPerRecord` starts at 0. -/
def csvNewReader (content : List CsvRecord) : CsvReader :=
  { FieldsPerRecord := 0, pending := content }

/-- The method `Reader.Read`: the next record and an error.  At end of input the
error is `io.EOF`.  A positive `FieldsPerRecord` is enforced on a record that
parsed; a `FieldsPerRecord` of 0 is set to the field count of the record read. -/
def CsvReader.Read (r : CsvReader) : (List String × Option ReadError) × CsvReader :=
  match r.pending with
  | [] => (([], some .eof), r)
  | .bad fs e :: rest =>
    if r.FieldsPerRecord > 0 then
      ((fs, some (.failed e)), { r with pending := rest })
    else
      ((fs, some (.failed e)), { FieldsPerRecord := fs.length, pending := rest })
  | .fields line fs :: rest =>
    if r.FieldsPerRecord > 0 then
      if fs.length ≠ r.FieldsPerRecord then
        ((fs, some (.failed (errFieldCount line))), { r with pending := rest })
      else
        ((fs, none), { r with pending := rest })
    else
      ((fs, none), { FieldsPerRecord := fs.length, pending := rest })

/-- The loop of `Reader.ReadAll`: read until `io.EOF`, stop at the first other
error.  `fuel` bounds the number of reads. -/
def CsvReader.readAllLoop : Nat → CsvReader → List (List String) →
    Except GoError (List (List String))
  | 0, _, _ => .error ⟨"csv: read budget exhausted"⟩
  | fuel + 1, r, records =>
    match r.Read with
    | ((_, some .eof), _) => .ok records
    | ((_, some (.failed err)), _) => .error err
    | ((record, none), r1) => readAllLoop fuel r1 (records ++ [record])

/-- The method `Reader.ReadAll`.  One read per pending record and one more for
the end of input. -/
def CsvReader.ReadAll (r : CsvReader) : Except GoError (List (List String)) :=
  r.readAllLoop (r.pending.length + 1) []

/-! ## main.go -/

/-- The text of the runtime panic for `s[i]` with `i` out of range. -/
def indexOutOfRange (i len : Nat) : String :=
  "runtime error: index out of range [" ++ toString i ++ "] with length " ++ toString len

/-- The text of the runtime panic for a method call through a nil pointer. -/
def nilDereference : String :=
  "runtime error: invalid memory address or nil pointer dereference"

/-- The `for i, record := range records` loop of `fromCSVToQuotes`: `record[0]`
and `record[1]` are read without a length check. -/
def quotesOfRecords : List (List String) → Outcome (List PointBreakQuote)
  | [] => .ok []
  | record :: rest =>
    match record with
    | [] => .crashed (indexOutOfRange 0 0)
    | [_] => .crashed (indexOutOfRange 1 1)
    | c :: q :: _ =>
      match quotesOfRecords rest with
      | .ok quotes => .ok ({ Character := c, Quote := q, Vector := [] } :: quotes)
      | .fatal m => .fatal m
      | .crashed m => .crashed m

def fromCSVToQuotes (w : World) (filepath : String) (h : List Event) :
    Run (Except GoError (List PointBreakQuote)) :=
  let h1 := h ++ [Event.osOpen filepath]
  match w.osOpen h filepath with
  | .error err => ⟨.ok (.error err), h1⟩
  | .ok content =>
    let reader := csvNewReader content
    match reader.Read with
    | ((headers, err), reader1) =>
      let h2 := h1 ++ [Event.stdout (.headers headers)]
      match err with
      | some err => ⟨.ok (.error err.toError), h2⟩
      | none =>
        match reader1.ReadAll with
        | .error err => ⟨.ok (.error err), h2⟩
        | .ok records =>
          match quotesOfRecords records with
          | .ok quotes => ⟨.ok (.ok quotes), h2⟩
          | .fatal m => ⟨.fatal m, h2⟩
          | .crashed m => ⟨.crashed m, h2⟩

/-- The `models.Object` literal of `buildObjectBatch`. -/
def mkObject (quote : PointBreakQuote) (vector : List F32) : Object :=
  { Class := "PointBreakQuote",
    Properties := [("character", quote.Character), ("quote", quote.Quote)],
    Vector := vector }

def buildObjectBatch (w : World) : List PointBreakQuote → List Event →
    Except GoError (List Object) × List Event
  | [], h => (.ok [], h)
  | quote :: rest, h =>
    match vectorizeText w quote.Quote h with
    | (.error err, h1) => (.error err, h1)
    | (.ok vector, h1) =>
      match buildObjectBatch w rest h1 with
      | (.error err, h2) => (.error err, h2)
      | (.ok objects, h2) => (.ok (mkObject quote vector :: objects), h2)

/-- Lines 59 to 68 of `main` (`// BATCH OBJECTS`), with a client in hand. -/
def batchObjects (w : World) (_client : Client) (quotes : List PointBreakQuote)
    (h : List Event) : Run Unit :=
  match buildObjectBatch w quotes h with
  | (.error err, h1) => ⟨.fatal ("Error building object batch: " ++ err.msg), h1⟩
  | (.ok objects, h1) =>
    let h2 := h1 ++ [Event.objectsBatch objects]
    match w.objectsBatch h1 objects with
    | .error err => ⟨.fatal ("Error batching objects: " ++ err.msg), h2⟩
    | .ok result => ⟨.ok (), h2 ++ [Event.stdout (.batchResult result)]⟩

/-- Lines 52 to 68 of `main` (`// CREATE CLASS`, then `// BATCH OBJECTS`).  The
first use of the client, `client.Schema()`, reads through the pointer. -/
def createClassAndBatch (w : World) (client : Option Client)
    (quotes : List PointBreakQuote) (h : List Event) : Run Unit :=
  match client with
  | none => ⟨.crashed nilDereference, h⟩
  | some c =>
    let h1 := h ++ [Event.classCreate "PointBreakQuote"]
    match w.classCreate h "PointBreakQuote" with
    | some err => ⟨.fatal ("Error creating class: " ++ err.msg), h1⟩
    | none => batchObjects w c quotes h1

/-- Lines 45 to 69 of `main`: the body of `if loadData`. -/
def loadDataBlock (w : World) (client : Option Client) (h : List Event) : Run Unit :=
  match fromCSVToQuotes w "quotes.csv" h with
  | ⟨.fatal m, h1⟩ => ⟨.fatal m, h1⟩
  | ⟨.crashed m, h1⟩ => ⟨.crashed m, h1⟩
  | ⟨.ok (.error err), h1⟩ => ⟨.fatal ("Error reading CSV file: " ++ err.msg), h1⟩
  | ⟨.ok (.ok quotes), h1⟩ =>
    createClassAndBatch w client quotes (h1 ++ [Event.stdout (.quotes quotes)])

/-- The GraphQL request of lines 76 to 88: class `PointBreakQuote`, the field
`quote`, the field `_additional` with `certainty` and `distance`, the near
vector, and no `WithLimit`. -/
def nearVectorQuery (vec : List F32) : GetRequest :=
  { ClassName := "PointBreakQuote",
    Fields := [{ Name := "quote", Fields := [] },
               { Name := "_additional", Fields := ["certainty", "distance"] }],
    NearVector := vec,
    Limit := none }

/-- Lines 71 to 96 of `main`: the query. -/
def queryBlock (w : World) (client : Option Client) (query : String)
    (h : List Event) : Run Unit :=
  match vectorizeText w query h with
  | (.error err, h1) => ⟨.fatal ("Error vectorizing text: " ++ err.msg), h1⟩
  | (.ok vec, h1) =>
    match client with
    | none => ⟨.crashed nilDereference, h1⟩
    | some _ =>
      let q := nearVectorQuery vec
      let h2 := h1 ++ [Event.graphqlGet q]
      match w.graphqlGet h1 q with
      | .error err => ⟨.fatal ("Error getting objects: " ++ err.msg), h2⟩
      | .ok result =>
        match result.Errors with
        | some [] => ⟨.crashed (indexOutOfRange 0 0), h2⟩
        | some (none :: _) => ⟨.crashed nilDereference, h2⟩
        | some (some e :: _) => ⟨.fatal ("GraphQL errors: " ++ e.Message), h2⟩
        | none => ⟨.ok (), h2 ++ [Event.stdout (.queryResult result)]⟩

/-- The call `weaviate.NewClient(cfg)` for the configuration `main` builds: an
API key as `AuthConfig`, no `ConnectionClient`, no `StartupTimeout`.  On this
path the library has no failing case (the API-key authentication only adds a
header), so the result is always `ok`. -/
def weaviateNewClient (cfg : Config) : Except GoError Client :=
  .ok ⟨cfg⟩

/-- The function `main`, started on an empty trace with the parsed flags
`loadData` and `query`.  The error check after `weaviate.NewClient` prints the
error and goes on with a nil client; the branch is kept as written.  The usage
text of the `-load` flag names Redis; the data is loaded into the Weaviate
store. -/
def main (w : World) (loadData : Bool) (query : String) : Run Unit :=
  let h1 := [Event.godotenvLoad]
  match w.godotenvLoad [] with
  | some _ => ⟨.fatal "Error loading .env file", h1⟩
  | none =>
    let cfg : Config :=
      { Host := w.getenv h1 "WEAVIATE_HOST", Scheme := "http",
        ApiKey := w.getenv h1 "WEAVIATE_API_KEY" }
    let h2 := h1 ++ [Event.newClient cfg]
    let created : Option Client × List Event :=
      match weaviateNewClient cfg with
      | .error err => (none, h2 ++ [Event.stdout (.err err)])
      | .ok client => (some client, h2)
    if loadData then
      match loadDataBlock w created.1 created.2 with
      | ⟨.ok (), h3⟩ => queryBlock w created.1 query h3
      | stopped => stopped
    else
      queryBlock w created.1 query created.2

/-! ## Observations on a trace -/

/-- The requests sent to the embedding service, in order. -/
def embedCalls : List Event → List Request
  | [] => []
  | Event.httpDo req :: rest => req :: embedCalls rest
  | _ :: rest => embedCalls rest

/-- The batches submitted to the store, in order. -/
def batchWrites : List Event → List (List Object)
  | [] => []
  | Event.objectsBatch objs :: rest => objs :: batchWrites rest
  | _ :: rest => batchWrites rest

/-- The nearest-vector searches issued to the store, in order. -/
def searches : List Event → List GetRequest
  | [] => []
  | Event.graphqlGet q :: rest => q :: searches rest
  | _ :: rest => searches rest

/-- The request `vectorizeText` sends for `inputs` when started on trace `h`. -/
def embedRequest (w : World) (inputs : String) (h : List Event) : Request :=
  { Method := "POST", URL := hg_api,
    Body := "\x7b\"inputs\":" ++ w.jsonString inputs
      ++ ",\"options\":\x7b\"use_cache\":true,\"wait_for_model\":true\x7d\x7d",
    Header := [("Authorization", "Bearer " ++ w.getenv h "HG_TOKEN"),
               ("Content-Type", "application/json")] }

/-! ## Concrete worlds -/

/-- The request body for `text` when strings are quoted without escapes. -/
def demoBody (text : String) : String :=
  "\x7b\"inputs\":\"" ++ text
    ++ "\",\"options\":\x7b\"use_cache\":true,\"wait_for_model\":true\x7d\x7d"

/-- A two-column file with a header and the two records of the scenario. -/
def demoCsv : List CsvRecord :=
  [.fields 1 ["character", "quote"],
   .fields 2 ["Bodhi", "Vaya con Dios."],
   .fields 3 ["Johnny", "I am an F.B.I. agent."]]

/-- A world in which every call succeeds.  The embedding service answers the
first quote with two numbers and every other text with one. -/
def demoWorld : World where
  godotenvLoad := fun _ => none
  getenv := fun _ key => if key = "WEAVIATE_HOST" then "localhost:8080" else "secret"
  osOpen := fun _ path =>
    if path = "quotes.csv" then .ok demoCsv
    else .error ⟨"open " ++ path ++ ": no such file or directory"⟩
  jsonString := fun s => "\"" ++ s ++ "\""
  httpDo := fun _ req =>
    if req.Body = demoBody "Vaya con Dios." then
      .ok { Status := "200 OK", StatusCode := 200, Body := "[0.5,0.25]" }
    else
      .ok { Status := "200 OK", StatusCode := 200, Body := "[0.5]" }
  jsonDecode := fun body =>
    if body = "[0.5,0.25]" then .ok [⟨1056964608⟩, ⟨1048576000⟩]
    else if body = "[0.5]" then .ok [⟨1056964608⟩]
    else .error ⟨"json: cannot unmarshal object into Go value of type []float32"⟩
  classCreate := fun _ _ => none
  objectsBatch := fun _ objs => .ok ⟨objs.map fun _ => none⟩
  graphqlGet := fun _ _ => .ok { Data := "Get", Errors := none }

/-! ## Helper definitions for the statements, and further concrete worlds -/

/-- The status line `vectorizeText` prints for a response. -/
def statusLine (resp : Response) : Event :=
  Event.stdout (.text ("Hugging Face Feature Extraction Response Status: " ++ resp.Status))

/-- A data row of a two-column file: the line it starts on and its two
columns. -/
def dataRow (r : Nat × String × String) : CsvRecord :=
  .fields r.1 [r.2.1, r.2.2]

/-- The quote `fromCSVToQuotes` makes of a two-column data row. -/
def quoteOfRow (r : Nat × String × String) : PointBreakQuote :=
  { Character := r.2.1, Quote := r.2.2, Vector := [] }

/-- The world `demoWorld` with a transport that refuses every connection. -/
def refusedWorld : World :=
  { demoWorld with httpDo := fun _ _ => .error ⟨"dial tcp: connection refused"⟩ }

/-- The world `demoWorld` with a service that rejects the credential with
status 401 and still sends a JSON array of numbers as the body. -/
def unauthorizedWorld : World :=
  { demoWorld with
    httpDo := fun _ _ =>
      .ok { Status := "401 Unauthorized", StatusCode := 401, Body := "[0.5]" } }

/-- The world `demoWorld` with a `quotes.csv` whose header row and only data
row both have one column. -/
def oneColumnWorld : World :=
  { demoWorld with
    osOpen := fun _ _ => .ok [.fields 1 ["quote"], .fields 2 ["Vaya con Dios."]] }

/-- The world `demoWorld` with a `quotes.csv` whose header row has two columns
and whose second data row has one. -/
def shortRowWorld : World :=
  { demoWorld with
    osOpen := fun _ _ =>
      .ok [.fields 1 ["character", "quote"],
           .fields 2 ["Bodhi", "Vaya con Dios."],
           .fields 3 ["I am an F.B.I. agent."]] }

/-- The two records of the scenario. -/
def demoQuotes : List PointBreakQuote :=
  [{ Character := "Bodhi", Quote := "Vaya con Dios.", Vector := [] },
   { Character := "Johnny", Quote := "I am an F.B.I. agent.", Vector := [] }]

/-- The world `demoWorld` with a transport that fails on the second quote. -/
def failSecondWorld : World :=
  { demoWorld with
    httpDo := fun _ req =>
      if req.Body = demoBody "I am an F.B.I. agent." then
        .error ⟨"context deadline exceeded"⟩
      else
        .ok { Status := "200 OK", StatusCode := 200, Body := "[0.5,0.25]" } }

/-- The world `demoWorld` with a store that already has the class. -/
def classExistsWorld : World :=
  { demoWorld with
    classCreate := fun _ _ =>
      some ⟨"status code: 422, error: class name PointBreakQuote already exists"⟩ }

/-- The world `demoWorld` with a store whose search result carries a GraphQL
error. -/
def graphqlErrorWorld : World :=
  { demoWorld with
    graphqlGet := fun _ _ =>
      .ok { Data := "",
            Errors := some [some ⟨"no such class with name PointBreakQuote"⟩] } }

/-- The world `demoWorld` with an embedding service that answers every request
with status 503 and a JSON object as the body. -/
def shortBodyWorld : World :=
  { demoWorld with
    httpDo := fun _ _ =>
      .ok { Status := "503 Service Unavailable", StatusCode := 503,
            Body := "\x7b\"error\":\"loading\"\x7d" } }

/-- The world `demoWorld` with a store whose search fails. -/
def searchDownWorld : World :=
  { demoWorld with graphqlGet := fun _ _ => .error ⟨"connection refused"⟩ }

/-- The configuration `main` builds from the environment. -/
def mainConfig (w : World) : Config :=
  { Host := w.getenv [Event.godotenvLoad] "WEAVIATE_HOST", Scheme := "http",
    ApiKey := w.getenv [Event.godotenvLoad] "WEAVIATE_API_KEY" }

/-- The trace of `main` once the environment is loaded and the client made. -/
def mainStart (w : World) : List Event :=
  [Event.godotenvLoad, Event.newClient (mainConfig w)]

/-- Whether an event is a line written to standard output. -/
def isPrint : Event → Bool
  | .stdout _ => true
  | _ => false

/-- Whether reading the records of an opened file reports an error: the header
row cannot be read, or `ReadAll` fails on the rest. -/
def csvReadFails (content : List CsvRecord) : Bool :=
  match (csvNewReader content).Read with
  | ((_, some _), _) => true
  | ((_, none), reader1) =>
    match reader1.ReadAll with
    | .error _ => true
    | .ok _ => false

/-- Whether the step behind an event, performed after the trace `pre`, reports
an error to `main`: the environment file fails to load, the store client
cannot be created, the file cannot be opened or read as CSV, the embedding
request fails or its body fails to decode, the class cannot be created, the
batch write fails, the search fails or its result starts with a GraphQL
error.  Printing reports nothing. -/
def stepFails (w : World) (pre : List Event) : Event → Bool
  | .godotenvLoad => (w.godotenvLoad pre).isSome
  | .newClient cfg =>
    match weaviateNewClient cfg with
    | .error _ => true
    | .ok _ => false
  | .osOpen path =>
    match w.osOpen pre path with
    | .error _ => true
    | .ok content => csvReadFails content
  | .stdout _ => false
  | .httpDo req =>
    match w.httpDo pre req with
    | .error _ => true
    | .ok resp =>
      match w.jsonDecode resp.Body with
      | .error _ => true
      | .ok _ => false
  | .classCreate cls => (w.classCreate pre cls).isSome
  | .objectsBatch objs =>
    match w.objectsBatch pre objs with
    | .error _ => true
    | .ok _ => false
  | .graphqlGet q =>
    match w.graphqlGet pre q with
    | .error _ => true
    | .ok result =>
      match result.Errors with
      | some (some _ :: _) => true
      | _ => false

/-- No step among `rest`, performed after `pre`, reports an error. -/
def noStepFails (w : World) : List Event → List Event → Bool
  | _, [] => true
  | pre, ev :: rest => !stepFails w pre ev && noStepFails w (pre ++ [ev]) rest

/-- Some step among `rest`, performed after `pre`, reports an error, and
nothing but printing follows the first one that does. -/
def stopsAtFirstError (w : World) : List Event → List Event → Bool
  | _, [] => false
  | pre, ev :: rest =>
    if stepFails w pre ev then rest.all isPrint
    else stopsAtFirstError w (pre ++ [ev]) rest

/-- Whether an outcome is an exit through `log.Fatal`. -/
def Outcome.isFatal {α : Type} : Outcome α → Bool
  | .fatal _ => true
  | _ => false

/-- A run started on trace `h` extends it by events of which either none
reports an error and the run does not end in `log.Fatal`, or one does, nothing
but printing follows the first, and the run ends in `log.Fatal`. -/
def Judged {α : Type} (w : World) (h : List Event) (r : Run α) : Prop :=
  ∃ new, r.trace = h ++ new ∧
    ((r.outcome.isFatal = false ∧ noStepFails w h new = true) ∨
     (r.outcome.isFatal = true ∧ stopsAtFirstError w h new = true))

/-! ## Lemmas: the embedding client -/

theorem embedCalls_append (a b : List Event) :
    embedCalls (a ++ b) = embedCalls a ++ embedCalls b := by
  induction a with
  | nil => rfl
  | cons e rest ih => cases e <;> simp [embedCalls, ih]

theorem batchWrites_append (a b : List Event) :
    batchWrites (a ++ b) = batchWrites a ++ batchWrites b := by
  induction a with
  | nil => rfl
  | cons e rest ih => cases e <;> simp [batchWrites, ih]

theorem searches_append (a b : List Event) :
    searches (a ++ b) = searches a ++ searches b := by
  induction a with
  | nil => rfl
  | cons e rest ih => cases e <;> simp [searches, ih]

theorem jsonMarshal_payload (w : World) (inputs : String) :
    jsonMarshal w { Inputs := inputs, Options := { UseCache := true, WaitForModel := true } }
      = .ok ("\x7b\"inputs\":" ++ w.jsonString inputs
          ++ ",\"options\":\x7b\"use_cache\":true,\"wait_for_model\":true\x7d\x7d") := by
  simp only [jsonMarshal, jsonBool, if_true, String.append_assoc]
  rfl

theorem headerSet_twice (w : World) (h : List Event) (body : String) :
    (({ Method := "POST", URL := hg_api, Body := body, Header := [] } : Request).headerSet
        "Authorization" ("Bearer " ++ w.getenv h "HG_TOKEN")).headerSet
        "Content-Type" "application/json"
      = { Method := "POST", URL := hg_api, Body := body,
          Header := [("Authorization", "Bearer " ++ w.getenv h "HG_TOKEN"),
                     ("Content-Type", "application/json")] } := by
  simp [Request.headerSet]

/-- The only branches of `vectorizeText` that can be taken: the transport
fails, the body fails to decode, or the decoded vector is returned. -/
theorem vectorizeText_eq (w : World) (inputs : String) (h : List Event) :
    vectorizeText w inputs h =
      match w.httpDo h (embedRequest w inputs h) with
      | .error err =>
        (.error (fmtErrorf "error making request: " err),
          h ++ [Event.httpDo (embedRequest w inputs h)])
      | .ok resp =>
        match w.jsonDecode resp.Body with
        | .error err =>
          (.error (fmtErrorf "error decoding response body: " err),
            h ++ [Event.httpDo (embedRequest w inputs h)] ++ [statusLine resp])
        | .ok data =>
          (.ok data, h ++ [Event.httpDo (embedRequest w inputs h)] ++ [statusLine resp]) := by
  unfold vectorizeText
  simp only [jsonMarshal_payload w inputs, httpNewRequest, headerSet_twice, embedRequest,
    statusLine]

theorem vectorizeText_embedCalls (w : World) (inputs : String) (h : List Event) :
    embedCalls (vectorizeText w inputs h).2 = embedCalls h ++ [embedRequest w inputs h] := by
  rw [vectorizeText_eq]
  cases w.httpDo h (embedRequest w inputs h) with
  | error err => simp [embedCalls_append, embedCalls]
  | ok resp =>
    cases hd : w.jsonDecode resp.Body <;> simp [hd, embedCalls_append, embedCalls, statusLine]

theorem vectorizeText_batchWrites (w : World) (inputs : String) (h : List Event) :
    batchWrites (vectorizeText w inputs h).2 = batchWrites h := by
  rw [vectorizeText_eq]
  cases w.httpDo h (embedRequest w inputs h) with
  | error err => simp [batchWrites_append, batchWrites]
  | ok resp =>
    cases hd : w.jsonDecode resp.Body <;> simp [hd, batchWrites_append, batchWrites, statusLine]

theorem vectorizeText_searches (w : World) (inputs : String) (h : List Event) :
    searches (vectorizeText w inputs h).2 = searches h := by
  rw [vectorizeText_eq]
  cases w.httpDo h (embedRequest w inputs h) with
  | error err => simp [searches_append, searches]
  | ok resp =>
    cases hd : w.jsonDecode resp.Body <;> simp [hd, searches_append, searches, statusLine]

/-! ## Lemmas: the batch builder -/

theorem buildObjectBatch_cons_ok (w : World) (q : PointBreakQuote)
    (rest : List PointBreakQuote) (h h2 : List Event) (objects : List Object) :
    buildObjectBatch w (q :: rest) h = (.ok objects, h2) ↔
      ∃ v h1 objs, vectorizeText w q.Quote h = (.ok v, h1) ∧
        buildObjectBatch w rest h1 = (.ok objs, h2) ∧ objects = mkObject q v :: objs := by
  simp only [buildObjectBatch]
  rcases hvt : vectorizeText w q.Quote h with ⟨res, hv⟩
  cases res with
  | error err => simp
  | ok vector =>
    dsimp only
    rcases hr : buildObjectBatch w rest hv with ⟨res2, hr2⟩
    cases res2 with
    | error err =>
      simp only [Prod.mk.injEq, reduceCtorEq, false_and, false_iff, not_exists, not_and]
      rintro v h1 objs ⟨-, rfl⟩ hb
      rw [hr] at hb
      simp at hb
    | ok objs2 =>
      simp only [Prod.mk.injEq, Except.ok.injEq]
      constructor
      · rintro ⟨rfl, rfl⟩
        exact ⟨vector, hv, objs2, ⟨rfl, rfl⟩, hr, rfl⟩
      · rintro ⟨v, h1, objs, ⟨hvv, rfl⟩, hb, rfl⟩
        cases hvv
        rw [hr] at hb
        simp only [Prod.mk.injEq, Except.ok.injEq] at hb
        obtain ⟨rfl, rfl⟩ := hb
        exact ⟨rfl, rfl⟩

theorem buildObjectBatch_cons_of_error (w : World) (q : PointBreakQuote)
    (rest : List PointBreakQuote) (h h1 : List Event) (e : GoError)
    (hv : vectorizeText w q.Quote h = (.error e, h1)) :
    buildObjectBatch w (q :: rest) h = (.error e, h1) := by
  simp only [buildObjectBatch, hv]

theorem buildObjectBatch_cons_of_ok (w : World) (q : PointBreakQuote)
    (rest : List PointBreakQuote) (h h1 : List Event) (v : List F32)
    (hv : vectorizeText w q.Quote h = (.ok v, h1)) :
    buildObjectBatch w (q :: rest) h =
      match buildObjectBatch w rest h1 with
      | (.error err, h2) => (.error err, h2)
      | (.ok objects, h2) => (.ok (mkObject q v :: objects), h2) := by
  simp only [buildObjectBatch, hv]

theorem buildObjectBatch_batchWrites (w : World) (quotes : List PointBreakQuote)
    (h : List Event) :
    batchWrites (buildObjectBatch w quotes h).2 = batchWrites h := by
  induction quotes generalizing h with
  | nil => rfl
  | cons q rest ih =>
    have hv := vectorizeText_batchWrites w q.Quote h
    rcases hvt : vectorizeText w q.Quote h with ⟨res, h1⟩
    rw [hvt] at hv
    cases res with
    | error err =>
      rw [buildObjectBatch_cons_of_error w q rest h h1 err hvt]
      exact hv
    | ok vector =>
      rw [buildObjectBatch_cons_of_ok w q rest h h1 vector hvt]
      have ih1 := ih h1
      rcases hb : buildObjectBatch w rest h1 with ⟨res2, h2⟩
      rw [hb] at ih1
      cases res2 with
      | error err => exact ih1.trans hv
      | ok objs => exact ih1.trans hv

theorem buildObjectBatch_searches (w : World) (quotes : List PointBreakQuote)
    (h : List Event) :
    searches (buildObjectBatch w quotes h).2 = searches h := by
  induction quotes generalizing h with
  | nil => rfl
  | cons q rest ih =>
    have hv := vectorizeText_searches w q.Quote h
    rcases hvt : vectorizeText w q.Quote h with ⟨res, h1⟩
    rw [hvt] at hv
    cases res with
    | error err =>
      rw [buildObjectBatch_cons_of_error w q rest h h1 err hvt]
      exact hv
    | ok vector =>
      rw [buildObjectBatch_cons_of_ok w q rest h h1 vector hvt]
      have ih1 := ih h1
      rcases hb : buildObjectBatch w rest h1 with ⟨res2, h2⟩
      rw [hb] at ih1
      cases res2 with
      | error err => exact ih1.trans hv
      | ok objs => exact ih1.trans hv

theorem buildObjectBatch_length (w : World) (quotes : List PointBreakQuote)
    (h h1 : List Event) (objects : List Object)
    (hb : buildObjectBatch w quotes h = (.ok objects, h1)) :
    objects.length = quotes.length := by
  induction quotes generalizing h objects with
  | nil =>
    simp only [buildObjectBatch, Prod.mk.injEq, Except.ok.injEq] at hb
    simp [← hb.1]
  | cons q rest ih =>
    obtain ⟨v, hv, objs, -, hr, rfl⟩ := (buildObjectBatch_cons_ok w q rest h h1 objects).1 hb
    simp [ih hv objs hr]

/-- Splitting a batch at a record whose embedding fails after the records
before it were embedded. -/
theorem buildObjectBatch_append_error (w : World) (pre post : List PointBreakQuote)
    (q : PointBreakQuote) (h hk hk2 : List Event) (objs : List Object) (e : GoError)
    (hpre : buildObjectBatch w pre h = (.ok objs, hk))
    (hfail : vectorizeText w q.Quote hk = (.error e, hk2)) :
    buildObjectBatch w (pre ++ q :: post) h = (.error e, hk2) := by
  induction pre generalizing h objs with
  | nil =>
    simp only [buildObjectBatch, Prod.mk.injEq, Except.ok.injEq] at hpre
    obtain ⟨-, rfl⟩ := hpre
    exact buildObjectBatch_cons_of_error w q post h hk2 e hfail
  | cons p rest ih =>
    obtain ⟨v, hv, objs2, hvt, hr, -⟩ := (buildObjectBatch_cons_ok w p rest h hk objs).1 hpre
    rw [List.cons_append, buildObjectBatch_cons_of_ok w p _ h hv v hvt, ih hv objs2 hr]

/-- Splitting a successful batch at any record: the records before it were
embedded first, then the record itself, then the rest. -/
theorem buildObjectBatch_append_ok (w : World) (pre post : List PointBreakQuote)
    (q : PointBreakQuote) (h h1 : List Event) (objects : List Object)
    (hb : buildObjectBatch w (pre ++ q :: post) h = (.ok objects, h1)) :
    ∃ objsPre hk v hk2 objsPost,
      buildObjectBatch w pre h = (.ok objsPre, hk) ∧
      vectorizeText w q.Quote hk = (.ok v, hk2) ∧
      buildObjectBatch w post hk2 = (.ok objsPost, h1) ∧
      objsPre.length = pre.length ∧
      objects = objsPre ++ mkObject q v :: objsPost := by
  induction pre generalizing h objects with
  | nil =>
    rw [List.nil_append] at hb
    obtain ⟨v, hv, objs, hvt, hr, rfl⟩ := (buildObjectBatch_cons_ok w q post h h1 objects).1 hb
    exact ⟨[], h, v, hv, objs, rfl, hvt, hr, rfl, rfl⟩
  | cons p rest ih =>
    rw [List.cons_append] at hb
    obtain ⟨v, hv, objs, hvt, hr, rfl⟩ := (buildObjectBatch_cons_ok w p _ h h1 objects).1 hb
    obtain ⟨objsPre, hk, v2, hk2, objsPost, h1, h2, h3, h4, h5⟩ := ih hv objs hr
    refine ⟨mkObject p v :: objsPre, hk, v2, hk2, objsPost, ?_, h2, h3, ?_, ?_⟩
    · exact (buildObjectBatch_cons_ok w p rest h hk _).2 ⟨v, hv, objsPre, hvt, h1, rfl⟩
    · simp [h4]
    · simp [h5]

/-- A batch over `pre ++ post` whose first part succeeds continues with the
second part from the trace the first part left. -/
theorem buildObjectBatch_append_of_ok (w : World) (pre post : List PointBreakQuote)
    (h hk : List Event) (objs : List Object)
    (hpre : buildObjectBatch w pre h = (.ok objs, hk)) :
    buildObjectBatch w (pre ++ post) h =
      match buildObjectBatch w post hk with
      | (.error err, h2) => (.error err, h2)
      | (.ok objects, h2) => (.ok (objs ++ objects), h2) := by
  induction pre generalizing h objs with
  | nil =>
    simp only [buildObjectBatch, Prod.mk.injEq, Except.ok.injEq] at hpre
    obtain ⟨rfl, rfl⟩ := hpre
    rcases hp : buildObjectBatch w post h with ⟨res, h2⟩
    cases res <;> simp [hp]
  | cons p rest ih =>
    obtain ⟨v, hv, objs2, hvt, hr, rfl⟩ := (buildObjectBatch_cons_ok w p rest h hk objs).1 hpre
    rw [List.cons_append, buildObjectBatch_cons_of_ok w p _ h hv v hvt, ih hv objs2 hr]
    rcases hp : buildObjectBatch w post hk with ⟨res, h2⟩
    cases res <;> simp

/-! ## Lemmas: the CSV reader -/

theorem readAllLoop_two_columns (rows : List (Nat × String × String)) (fuel : Nat)
    (records : List (List String)) (hfuel : rows.length < fuel) :
    CsvReader.readAllLoop fuel { FieldsPerRecord := 2, pending := rows.map dataRow } records
      = .ok (records ++ rows.map fun r => [r.2.1, r.2.2]) := by
  induction rows generalizing fuel records with
  | nil =>
    cases fuel with
    | zero => simp at hfuel
    | succ n => simp [CsvReader.readAllLoop, CsvReader.Read]
  | cons r rest ih =>
    cases fuel with
    | zero => simp at hfuel
    | succ n =>
      have hn : rest.length < n := by simpa using hfuel
      simp [CsvReader.readAllLoop, CsvReader.Read, dataRow, ih n _ hn]

theorem quotesOfRecords_two_columns (rows : List (Nat × String × String)) :
    quotesOfRecords (rows.map fun r => [r.2.1, r.2.2]) = .ok (rows.map quoteOfRow) := by
  induction rows with
  | nil => rfl
  | cons r rest ih => simp [quotesOfRecords, ih, quoteOfRow]

/-- With the field count fixed at two or more, a pending one-column row makes
`ReadAll` fail. -/
theorem readAllLoop_one_column (pending : List CsvRecord) (n fuel line : Nat) (x : String)
    (records : List (List String)) (hn : 2 ≤ n) (hfuel : pending.length < fuel)
    (hrow : CsvRecord.fields line [x] ∈ pending) :
    ∃ err, CsvReader.readAllLoop fuel { FieldsPerRecord := n, pending := pending } records
      = .error err := by
  induction pending generalizing fuel records with
  | nil => simp at hrow
  | cons r rest ih =>
    cases fuel with
    | zero => simp at hfuel
    | succ m =>
      have hm : rest.length < m := by simpa using hfuel
      have hpos : n > 0 := by omega
      cases r with
      | bad fs e => exact ⟨e, by simp [CsvReader.readAllLoop, CsvReader.Read, hpos]⟩
      | fields l fs =>
        by_cases hlen : fs.length = n
        · have hmem : CsvRecord.fields line [x] ∈ rest := by
            rcases List.mem_cons.1 hrow with heq | hmem
            · cases heq
              simp at hlen
              omega
            · exact hmem
          obtain ⟨err, herr⟩ := ih m (records ++ [fs]) hm hmem
          exact ⟨err, by simp [CsvReader.readAllLoop, CsvReader.Read, hpos, hlen, herr]⟩
        · exact ⟨errFieldCount l, by simp [CsvReader.readAllLoop, CsvReader.Read, hpos, hlen]⟩

/-! ## The embedding client -/

theorem fmtErrorf_ne (lead : String) (e : GoError) (hlead : 0 < lead.length) :
    fmtErrorf lead e ≠ e := by
  intro heq
  have hmsg : (fmtErrorf lead e).msg = e.msg := by rw [heq]
  have hlen := congrArg String.length hmsg
  simp only [fmtErrorf, String.length_append] at hlen
  omega

/-- C8, as the code has it: when the transport fails with `e`, `vectorizeText`
returns no vector and a new error whose text is `error making request: `
followed by the text of `e`; when the body fails to decode with `e`, it returns
no vector and a new error whose text is `error decoding response body: `
followed by the text of `e`.  In both cases the returned error is not `e`. -/
theorem vectorizeText_error_wrapped (w : World) (inputs : String) (h : List Event)
    (e : GoError) :
    (w.httpDo h (embedRequest w inputs h) = .error e →
      (vectorizeText w inputs h).1 = .error ⟨"error making request: " ++ e.msg⟩ ∧
      (vectorizeText w inputs h).1 ≠ .error e) ∧
    (∀ resp, w.httpDo h (embedRequest w inputs h) = .ok resp →
      w.jsonDecode resp.Body = .error e →
      (vectorizeText w inputs h).1 = .error ⟨"error decoding response body: " ++ e.msg⟩ ∧
      (vectorizeText w inputs h).1 ≠ .error e) := by
  constructor
  · intro hdo
    have hres : (vectorizeText w inputs h).1
        = .error (fmtErrorf "error making request: " e) := by
      rw [vectorizeText_eq, hdo]
    refine ⟨hres, ?_⟩
    rw [hres]
    intro heq
    exact fmtErrorf_ne _ e (by decide) (Except.error.inj heq)
  · intro resp hdo hdec
    have hres : (vectorizeText w inputs h).1
        = .error (fmtErrorf "error decoding response body: " e) := by
      rw [vectorizeText_eq, hdo]
      simp only [hdec]
    refine ⟨hres, ?_⟩
    rw [hres]
    intro heq
    exact fmtErrorf_ne _ e (by decide) (Except.error.inj heq)

/-- C8 at a refused connection: the transport error is applied to the first
part of `vectorizeText_error_wrapped`. -/
theorem vectorizeText_error_wrapped_witness :
    (vectorizeText refusedWorld "Vaya con Dios." []).1
        = .error ⟨"error making request: " ++ "dial tcp: connection refused"⟩ ∧
    (vectorizeText refusedWorld "Vaya con Dios." []).1
        ≠ .error ⟨"dial tcp: connection refused"⟩ :=
  (vectorizeText_error_wrapped refusedWorld "Vaya con Dios." []
    ⟨"dial tcp: connection refused"⟩).1 rfl

/-- C8 as stated fails: the transport fails with `dial tcp: connection refused`
and `vectorizeText` returns a different error, the same text behind the lead
`error making request: `. -/
theorem vectorizeText_transport_error_changed :
    refusedWorld.httpDo [] (embedRequest refusedWorld "Vaya con Dios." [])
        = .error ⟨"dial tcp: connection refused"⟩ ∧
    (vectorizeText refusedWorld "Vaya con Dios." []).1
        = .error ⟨"error making request: dial tcp: connection refused"⟩ ∧
    (vectorizeText refusedWorld "Vaya con Dios." []).1
        ≠ .error ⟨"dial tcp: connection refused"⟩ := by
  refine ⟨rfl, rfl, ?_⟩
  intro heq
  have h2 : (vectorizeText refusedWorld "Vaya con Dios." []).1
      = .error ⟨"error making request: dial tcp: connection refused"⟩ := rfl
  rw [h2] at heq
  have hmsg := congrArg GoError.msg (Except.error.inj heq)
  exact absurd hmsg (by decide)

/-- C10: once the transport has delivered a response, the result of
`vectorizeText` is a function of the response body alone.  Two responses with
the same body give the same result whatever their status; a body that decodes
to a vector is returned as that vector; and an error is returned exactly when
the body fails to decode. -/
theorem vectorizeText_ignores_status (w1 w2 : World) (inputs : String)
    (h1 h2 : List Event) (r1 r2 : Response)
    (hdec : w2.jsonDecode = w1.jsonDecode)
    (hr1 : w1.httpDo h1 (embedRequest w1 inputs h1) = .ok r1)
    (hr2 : w2.httpDo h2 (embedRequest w2 inputs h2) = .ok r2)
    (hbody : r1.Body = r2.Body) :
    (vectorizeText w1 inputs h1).1 = (vectorizeText w2 inputs h2).1 ∧
    (∀ v, w1.jsonDecode r1.Body = .ok v → (vectorizeText w1 inputs h1).1 = .ok v) ∧
    ((∃ e, (vectorizeText w1 inputs h1).1 = .error e) ↔
      ∃ e, w1.jsonDecode r1.Body = .error e) := by
  have e1 : (vectorizeText w1 inputs h1).1 =
      match w1.jsonDecode r1.Body with
      | .error err => .error (fmtErrorf "error decoding response body: " err)
      | .ok data => .ok data := by
    rw [vectorizeText_eq, hr1]
    cases hd : w1.jsonDecode r1.Body <;> simp [hd]
  have e2 : (vectorizeText w2 inputs h2).1 =
      match w1.jsonDecode r1.Body with
      | .error err => .error (fmtErrorf "error decoding response body: " err)
      | .ok data => .ok data := by
    rw [vectorizeText_eq, hr2, hdec]
    dsimp only
    rw [← hbody]
    cases hd : w1.jsonDecode r1.Body <;> simp [hd]
  refine ⟨e1.trans e2.symm, ?_, ?_⟩
  · intro v hv
    rw [e1, hv]
  · rw [e1]
    cases hd : w1.jsonDecode r1.Body <;> simp

/-- C10 at a 200 response and a 401 response with the same body `[0.5]`: both
calls return the vector of the body. -/
theorem vectorizeText_ignores_status_witness :
    (vectorizeText demoWorld "I am an F.B.I. agent." []).1
      = (vectorizeText unauthorizedWorld "I am an F.B.I. agent." []).1 ∧
    (vectorizeText unauthorizedWorld "I am an F.B.I. agent." []).1 = .ok [⟨1056964608⟩] :=
  ⟨(vectorizeText_ignores_status demoWorld unauthorizedWorld "I am an F.B.I. agent." [] []
      { Status := "200 OK", StatusCode := 200, Body := "[0.5]" }
      { Status := "401 Unauthorized", StatusCode := 401, Body := "[0.5]" }
      rfl rfl rfl rfl).1, rfl⟩

/-! ## Reading the records -/

/-- The function `fromCSVToQuotes` performs no effect besides opening the file
and printing the header row. -/
theorem fromCSVToQuotes_trace (w : World) (filepath : String) (h : List Event) :
    (fromCSVToQuotes w filepath h).trace = h ++ [Event.osOpen filepath] ∨
    ∃ headers, (fromCSVToQuotes w filepath h).trace
      = h ++ [Event.osOpen filepath] ++ [Event.stdout (.headers headers)] := by
  unfold fromCSVToQuotes
  cases w.osOpen h filepath with
  | error err => exact Or.inl rfl
  | ok content =>
    right
    dsimp only
    rcases hread : (csvNewReader content).Read with ⟨⟨headers, err⟩, reader1⟩
    refine ⟨headers, ?_⟩
    cases err with
    | some e => rfl
    | none =>
      dsimp only
      cases reader1.ReadAll with
      | error e => rfl
      | ok records =>
        dsimp only
        cases quotesOfRecords records <;> rfl

theorem fromCSVToQuotes_embedCalls (w : World) (filepath : String) (h : List Event) :
    embedCalls (fromCSVToQuotes w filepath h).trace = embedCalls h := by
  rcases fromCSVToQuotes_trace w filepath h with ht | ⟨headers, ht⟩ <;>
    simp [ht, embedCalls_append, embedCalls]

theorem fromCSVToQuotes_batchWrites (w : World) (filepath : String) (h : List Event) :
    batchWrites (fromCSVToQuotes w filepath h).trace = batchWrites h := by
  rcases fromCSVToQuotes_trace w filepath h with ht | ⟨headers, ht⟩ <;>
    simp [ht, batchWrites_append, batchWrites]

/-- C6: when the file opens and holds a two-column header row followed by `N`
two-column data rows, `fromCSVToQuotes` returns exactly `N` quotes in file
order, none of them made of the header row; the `i`-th has `Character` the
first column and `Quote` the second column of the `i`-th data row, and an empty
`Vector`. -/
theorem fromCSVToQuotes_two_columns (w : World) (filepath : String) (h : List Event)
    (line0 : Nat) (head0 head1 : String) (rows : List (Nat × String × String))
    (hopen : w.osOpen h filepath
      = .ok (CsvRecord.fields line0 [head0, head1] :: rows.map dataRow)) :
    (fromCSVToQuotes w filepath h).outcome = .ok (.ok (rows.map quoteOfRow)) ∧
    (rows.map quoteOfRow).length = rows.length ∧
    ∀ i (hi : i < rows.length),
      (rows.map quoteOfRow)[i]? =
        some { Character := rows[i].2.1, Quote := rows[i].2.2, Vector := [] } := by
  refine ⟨?_, by simp, ?_⟩
  · unfold fromCSVToQuotes
    simp only [hopen, csvNewReader, CsvReader.Read, gt_iff_lt, lt_self_iff_false, if_false,
      List.length_cons, List.length_nil, CsvReader.ReadAll]
    rw [readAllLoop_two_columns rows _ [] (by simp)]
    simp only [List.nil_append, quotesOfRecords_two_columns]
  · intro i hi
    simp [quoteOfRow, hi]

/-- C6 on the file of `demoWorld`: a header row and two data rows give the two
quotes of the data rows. -/
theorem fromCSVToQuotes_two_columns_witness :
    (fromCSVToQuotes demoWorld "quotes.csv" []).outcome
      = .ok (.ok [{ Character := "Bodhi", Quote := "Vaya con Dios.", Vector := [] },
                  { Character := "Johnny", Quote := "I am an F.B.I. agent.", Vector := [] }]) :=
  (fromCSVToQuotes_two_columns demoWorld "quotes.csv" [] 1 "character" "quote"
    [(2, "Bodhi", "Vaya con Dios."), (3, "Johnny", "I am an F.B.I. agent.")] rfl).1

/-- C5 fails on a file whose rows all have one column: the header row fixes
the field count at one, the data row passes the count, and `record[1]` panics.
The run of `main` with `-load` ends in that panic. -/
theorem fromCSVToQuotes_one_column_crash :
    fromCSVToQuotes oneColumnWorld "quotes.csv" []
      = ⟨.crashed "runtime error: index out of range [1] with length 1",
         [Event.osOpen "quotes.csv", Event.stdout (.headers ["quote"])]⟩ ∧
    (main oneColumnWorld true "Vaya con Dios.").outcome
      = .crashed "runtime error: index out of range [1] with length 1" ∧
    embedCalls (main oneColumnWorld true "Vaya con Dios.").trace = [] :=
  ⟨rfl, rfl, rfl⟩

/-- The sibling path of C5: when the header row has two or more columns, a
data row with one column makes `fromCSVToQuotes` return an error, and no
embedding call is made. -/
theorem fromCSVToQuotes_short_row_error (w : World) (filepath : String) (h : List Event)
    (line0 line : Nat) (headers : List String) (x : String) (data : List CsvRecord)
    (hopen : w.osOpen h filepath = .ok (CsvRecord.fields line0 headers :: data))
    (hcols : 2 ≤ headers.length)
    (hrow : CsvRecord.fields line [x] ∈ data) :
    (∃ err, (fromCSVToQuotes w filepath h).outcome = .ok (.error err)) ∧
    embedCalls (fromCSVToQuotes w filepath h).trace = embedCalls h := by
  refine ⟨?_, fromCSVToQuotes_embedCalls w filepath h⟩
  obtain ⟨err, herr⟩ := readAllLoop_one_column data headers.length (data.length + 1) line x []
    hcols (by simp) hrow
  refine ⟨err, ?_⟩
  unfold fromCSVToQuotes
  simp only [hopen, csvNewReader, CsvReader.Read, gt_iff_lt, lt_self_iff_false, if_false,
    CsvReader.ReadAll, herr]

/-! ## Ingestion -/

theorem batchObjects_of_error (w : World) (c : Client) (quotes : List PointBreakQuote)
    (h h1 : List Event) (e : GoError)
    (hb : buildObjectBatch w quotes h = (.error e, h1)) :
    batchObjects w c quotes h = ⟨.fatal ("Error building object batch: " ++ e.msg), h1⟩ := by
  simp only [batchObjects, hb]

theorem batchObjects_of_ok (w : World) (c : Client) (quotes : List PointBreakQuote)
    (h h1 : List Event) (objects : List Object)
    (hb : buildObjectBatch w quotes h = (.ok objects, h1)) :
    batchObjects w c quotes h =
      match w.objectsBatch h1 objects with
      | .error err =>
        ⟨.fatal ("Error batching objects: " ++ err.msg), h1 ++ [Event.objectsBatch objects]⟩
      | .ok result =>
        ⟨.ok (), h1 ++ [Event.objectsBatch objects] ++ [Event.stdout (.batchResult result)]⟩ := by
  simp only [batchObjects, hb]

/-- C1: when the records before the `k`-th were embedded and the embedding of
the `k`-th fails with `e`, `buildObjectBatch` returns `e` and no objects, the
batch step of `main` ends in `log.Fatalf` without a batch write, and the
ingestion run that read these records ends abnormally with no batch
submitted. -/
theorem ingestion_atomicity (w : World) (c : Client) (client : Option Client)
    (pre post : List PointBreakQuote) (q : PointBreakQuote)
    (h hk hk2 : List Event) (objs : List Object) (e : GoError)
    (hpre : buildObjectBatch w pre h = (.ok objs, hk))
    (hfail : vectorizeText w q.Quote hk = (.error e, hk2)) :
    buildObjectBatch w (pre ++ q :: post) h = (.error e, hk2) ∧
    batchObjects w c (pre ++ q :: post) h
      = ⟨.fatal ("Error building object batch: " ++ e.msg), hk2⟩ ∧
    batchWrites hk2 = batchWrites h ∧
    ∀ h0 h1, fromCSVToQuotes w "quotes.csv" h0 = ⟨.ok (.ok (pre ++ q :: post)), h1⟩ →
      h = h1 ++ [Event.stdout (.quotes (pre ++ q :: post))]
            ++ [Event.classCreate "PointBreakQuote"] →
      (loadDataBlock w client h0).outcome ≠ .ok () ∧
      batchWrites (loadDataBlock w client h0).trace = batchWrites h0 := by
  have hb := buildObjectBatch_append_error w pre post q h hk hk2 objs e hpre hfail
  have hw : batchWrites hk2 = batchWrites h := by
    have := buildObjectBatch_batchWrites w (pre ++ q :: post) h
    rwa [hb] at this
  refine ⟨hb, batchObjects_of_error w c _ h hk2 e hb, hw, ?_⟩
  intro h0 h1 hcsv hh
  have hcw : batchWrites h1 = batchWrites h0 := by
    have := fromCSVToQuotes_batchWrites w "quotes.csv" h0
    rwa [hcsv] at this
  have hhw : batchWrites h = batchWrites h0 := by
    rw [hh]
    simp [batchWrites_append, batchWrites, hcw]
  unfold loadDataBlock
  rw [hcsv]
  dsimp only
  cases client with
  | none =>
    simp [createClassAndBatch, batchWrites_append, batchWrites, hcw]
  | some c2 =>
    unfold createClassAndBatch
    dsimp only
    cases w.classCreate (h1 ++ [Event.stdout (.quotes (pre ++ q :: post))])
        "PointBreakQuote" with
    | some err =>
      dsimp only
      refine ⟨by simp, ?_⟩
      rw [← hh]
      exact hhw
    | none =>
      dsimp only
      rw [← hh, batchObjects_of_error w c2 _ h hk2 e hb]
      exact ⟨by simp, hw.trans hhw⟩

/-- C1 on two records whose second embedding fails: the first record is
embedded, the call for the second fails, and the theorem gives the error and
the absence of a batch write. -/
theorem ingestion_atomicity_witness :
    (buildObjectBatch failSecondWorld demoQuotes []).1
      = .error ⟨"error making request: context deadline exceeded"⟩ ∧
    (batchObjects failSecondWorld ⟨⟨"localhost:8080", "http", "secret"⟩⟩ demoQuotes []).outcome
      = .fatal "Error building object batch: error making request: context deadline exceeded" ∧
    batchWrites (batchObjects failSecondWorld
      ⟨⟨"localhost:8080", "http", "secret"⟩⟩ demoQuotes []).trace = [] := by
  have key := ingestion_atomicity failSecondWorld ⟨⟨"localhost:8080", "http", "secret"⟩⟩ none
    [{ Character := "Bodhi", Quote := "Vaya con Dios.", Vector := [] }] []
    { Character := "Johnny", Quote := "I am an F.B.I. agent.", Vector := [] }
    []
    (buildObjectBatch failSecondWorld
      [{ Character := "Bodhi", Quote := "Vaya con Dios.", Vector := [] }] []).2
    (buildObjectBatch failSecondWorld demoQuotes []).2
    [mkObject { Character := "Bodhi", Quote := "Vaya con Dios.", Vector := [] }
      [⟨1056964608⟩, ⟨1048576000⟩]]
    ⟨"error making request: context deadline exceeded"⟩ rfl rfl
  refine ⟨?_, ?_, ?_⟩
  · exact congrArg Prod.fst key.1
  · exact congrArg Run.outcome key.2.1
  · have h2 := congrArg Run.trace key.2.1
    have h3 := key.2.2.1
    exact (congrArg batchWrites h2).trans h3

/-- C2: when every embedding call the loop reaches succeeds, `buildObjectBatch`
returns exactly `N` objects for `N` records, in input order; the `i`-th object
has class `PointBreakQuote`, the character and quote of the `i`-th record, and
the vector returned by the embedding call for the `i`-th quote.  The batch
step of `main` then calls the store's batch write exactly once, with exactly
these objects, and ends normally when the store accepts the batch; so does the
ingestion run that read these records and created the class.  Conversely an
ingestion run that ends normally has written exactly this one batch. -/
theorem batch_completeness (w : World) (quotes : List PointBreakQuote) (h : List Event)
    (hall : ∀ pre q post objsPre hk, quotes = pre ++ q :: post →
      buildObjectBatch w pre h = (.ok objsPre, hk) →
      ∃ v hk2, vectorizeText w q.Quote hk = (.ok v, hk2)) :
    ∃ objects hend, buildObjectBatch w quotes h = (.ok objects, hend) ∧
      objects.length = quotes.length ∧
      (∀ i (hi : i < quotes.length), ∃ objsPre hk v hk2,
        buildObjectBatch w (quotes.take i) h = (.ok objsPre, hk) ∧
        vectorizeText w quotes[i].Quote hk = (.ok v, hk2) ∧
        objects[i]? = some
          { Class := "PointBreakQuote",
            Properties := [("character", quotes[i].Character), ("quote", quotes[i].Quote)],
            Vector := v }) ∧
      (∀ c, batchWrites (batchObjects w c quotes h).trace = batchWrites h ++ [objects]) ∧
      (∀ c result, w.objectsBatch hend objects = .ok result →
        batchObjects w c quotes h
          = ⟨.ok (), hend ++ [Event.objectsBatch objects]
              ++ [Event.stdout (.batchResult result)]⟩) ∧
      (∀ c h0 h1,
        fromCSVToQuotes w "quotes.csv" h0 = ⟨.ok (.ok quotes), h1⟩ →
        h = h1 ++ [Event.stdout (.quotes quotes)] ++ [Event.classCreate "PointBreakQuote"] →
        w.classCreate (h1 ++ [Event.stdout (.quotes quotes)]) "PointBreakQuote" = none →
        batchWrites (loadDataBlock w (some c) h0).trace = batchWrites h0 ++ [objects] ∧
        ∀ result, w.objectsBatch hend objects = .ok result →
          (loadDataBlock w (some c) h0).outcome = .ok ()) ∧
      (∀ client h0 h1 t,
        fromCSVToQuotes w "quotes.csv" h0 = ⟨.ok (.ok quotes), h1⟩ →
        h = h1 ++ [Event.stdout (.quotes quotes)] ++ [Event.classCreate "PointBreakQuote"] →
        loadDataBlock w client h0 = ⟨.ok (), t⟩ →
        batchWrites t = batchWrites h0 ++ [objects]) := by
  -- the whole batch succeeds
  have hok : ∀ (n : Nat), n ≤ quotes.length →
      ∃ objs hk, buildObjectBatch w (quotes.take n) h = (.ok objs, hk) := by
    intro n
    induction n with
    | zero => intro _; exact ⟨[], h, rfl⟩
    | succ n ih =>
      intro hn
      have hlt : n < quotes.length := by omega
      obtain ⟨objs, hk, hpre⟩ := ih (by omega)
      have hsplit : quotes = quotes.take n ++ quotes[n] :: quotes.drop (n + 1) := by
        rw [← List.drop_eq_getElem_cons hlt, List.take_append_drop]
      obtain ⟨v, hk2, hv⟩ := hall _ _ _ objs hk hsplit hpre
      have htake : quotes.take (n + 1) = quotes.take n ++ [quotes[n]] := by
        rw [List.take_succ, List.getElem?_eq_getElem hlt]
        rfl
      have hone : buildObjectBatch w [quotes[n]] hk = (.ok [mkObject quotes[n] v], hk2) := by
        rw [buildObjectBatch_cons_of_ok w _ [] hk hk2 v hv]
        rfl
      refine ⟨objs ++ [mkObject quotes[n] v], hk2, ?_⟩
      rw [htake, buildObjectBatch_append_of_ok w _ _ h hk objs hpre, hone]
  obtain ⟨objects, hend, hb⟩ := hok quotes.length le_rfl
  rw [List.take_length] at hb
  have hw := buildObjectBatch_batchWrites w quotes h
  rw [hb] at hw
  have hwrite : ∀ c, batchWrites (batchObjects w c quotes h).trace
      = batchWrites h ++ [objects] := by
    intro c
    rw [batchObjects_of_ok w c quotes h hend objects hb]
    cases hres : w.objectsBatch hend objects with
    | error err => simp [batchWrites_append, batchWrites, hw]
    | ok result => simp [batchWrites_append, batchWrites, hw]
  have hdone : ∀ c result, w.objectsBatch hend objects = .ok result →
      batchObjects w c quotes h
        = ⟨.ok (), hend ++ [Event.objectsBatch objects]
            ++ [Event.stdout (.batchResult result)]⟩ := by
    intro c result hres
    rw [batchObjects_of_ok w c quotes h hend objects hb, hres]
  have hload : ∀ c h0 h1,
      fromCSVToQuotes w "quotes.csv" h0 = ⟨.ok (.ok quotes), h1⟩ →
      h = h1 ++ [Event.stdout (.quotes quotes)] ++ [Event.classCreate "PointBreakQuote"] →
      w.classCreate (h1 ++ [Event.stdout (.quotes quotes)]) "PointBreakQuote" = none →
      loadDataBlock w (some c) h0 = batchObjects w c quotes h := by
    intro c h0 h1 hcsv hh hcc
    unfold loadDataBlock
    rw [hcsv]
    simp only [createClassAndBatch, hcc]
    rw [hh]
  have hcw : ∀ h0 h1, fromCSVToQuotes w "quotes.csv" h0 = ⟨.ok (.ok quotes), h1⟩ →
      h = h1 ++ [Event.stdout (.quotes quotes)] ++ [Event.classCreate "PointBreakQuote"] →
      batchWrites h = batchWrites h0 := by
    intro h0 h1 hcsv hh
    have := fromCSVToQuotes_batchWrites w "quotes.csv" h0
    rw [hcsv] at this
    rw [hh]
    simpa [batchWrites_append, batchWrites] using this
  refine ⟨objects, hend, hb, buildObjectBatch_length w quotes h hend objects hb, ?_,
    hwrite, hdone, ?_, ?_⟩
  · intro i hi
    have hsplit : quotes = quotes.take i ++ quotes[i] :: quotes.drop (i + 1) := by
      rw [← List.drop_eq_getElem_cons hi, List.take_append_drop]
    have hb2 := hb
    rw [hsplit] at hb2
    obtain ⟨objsPre, hk, v, hk2, objsPost, h1, h2, -, h4, h5⟩ :=
      buildObjectBatch_append_ok w _ _ _ h hend objects hb2
    refine ⟨objsPre, hk, v, hk2, h1, h2, ?_⟩
    have hlen : objsPre.length = i := by
      rw [h4, List.length_take]
      omega
    rw [h5, List.getElem?_append_right (by omega), hlen]
    simp [mkObject]
  · intro c h0 h1 hcsv hh hcc
    rw [hload c h0 h1 hcsv hh hcc]
    refine ⟨?_, ?_⟩
    · rw [hwrite c, hcw h0 h1 hcsv hh]
    · intro result hres
      rw [hdone c result hres]
  · intro client h0 h1 t hcsv hh ht
    cases client with
    | none =>
      unfold loadDataBlock at ht
      rw [hcsv] at ht
      simp [createClassAndBatch] at ht
    | some c =>
      cases hcc : w.classCreate (h1 ++ [Event.stdout (.quotes quotes)]) "PointBreakQuote" with
      | some err =>
        unfold loadDataBlock at ht
        rw [hcsv] at ht
        simp [createClassAndBatch, hcc] at ht
      | none =>
        have ht2 := congrArg (fun r => batchWrites r.trace) (hload c h0 h1 hcsv hh hcc)
        simp only at ht2
        rw [ht, hwrite c, hcw h0 h1 hcsv hh] at ht2
        exact ht2

theorem demoWorld_embeds (inputs : String) (h : List Event) :
    ∃ v h2, vectorizeText demoWorld inputs h = (.ok v, h2) := by
  have hdo : demoWorld.httpDo h (embedRequest demoWorld inputs h) =
      if (embedRequest demoWorld inputs h).Body = demoBody "Vaya con Dios." then
        .ok { Status := "200 OK", StatusCode := 200, Body := "[0.5,0.25]" }
      else
        .ok { Status := "200 OK", StatusCode := 200, Body := "[0.5]" } := rfl
  rw [vectorizeText_eq, hdo]
  by_cases hb : (embedRequest demoWorld inputs h).Body = demoBody "Vaya con Dios."
  · rw [if_pos hb]
    exact ⟨[⟨1056964608⟩, ⟨1048576000⟩], _, rfl⟩
  · rw [if_neg hb]
    exact ⟨[⟨1056964608⟩], _, rfl⟩

/-- C2 on the two records of the scenario in `demoWorld`, where every embedding
call succeeds and the store accepts the batch: two objects are built, the batch
step ends normally having written exactly one batch, these two objects, and so
does the ingestion run that reads the two records from `quotes.csv`. -/
theorem batch_completeness_witness :
    (buildObjectBatch demoWorld demoQuotes []).1
      = .ok [mkObject ⟨"Bodhi", "Vaya con Dios.", []⟩ [⟨1056964608⟩, ⟨1048576000⟩],
             mkObject ⟨"Johnny", "I am an F.B.I. agent.", []⟩ [⟨1056964608⟩]] ∧
    (batchObjects demoWorld ⟨⟨"localhost:8080", "http", "secret"⟩⟩ demoQuotes []).outcome
      = .ok () ∧
    batchWrites
        (batchObjects demoWorld ⟨⟨"localhost:8080", "http", "secret"⟩⟩ demoQuotes []).trace
      = [[mkObject ⟨"Bodhi", "Vaya con Dios.", []⟩ [⟨1056964608⟩, ⟨1048576000⟩],
          mkObject ⟨"Johnny", "I am an F.B.I. agent.", []⟩ [⟨1056964608⟩]]] ∧
    (loadDataBlock demoWorld (some ⟨⟨"localhost:8080", "http", "secret"⟩⟩) []).outcome
      = .ok () ∧
    batchWrites
        (loadDataBlock demoWorld (some ⟨⟨"localhost:8080", "http", "secret"⟩⟩) []).trace
      = [[mkObject ⟨"Bodhi", "Vaya con Dios.", []⟩ [⟨1056964608⟩, ⟨1048576000⟩],
          mkObject ⟨"Johnny", "I am an F.B.I. agent.", []⟩ [⟨1056964608⟩]]] := by
  obtain ⟨objects, hend, hb, -, -, hwrite, hdone, -, -⟩ :=
    batch_completeness demoWorld demoQuotes []
      (fun _ q _ _ hk _ _ => demoWorld_embeds q.Quote hk)
  have hval : buildObjectBatch demoWorld demoQuotes []
      = (.ok [mkObject ⟨"Bodhi", "Vaya con Dios.", []⟩ [⟨1056964608⟩, ⟨1048576000⟩],
              mkObject ⟨"Johnny", "I am an F.B.I. agent.", []⟩ [⟨1056964608⟩]],
         (buildObjectBatch demoWorld demoQuotes []).2) := rfl
  rw [hval] at hb
  simp only [Prod.mk.injEq, Except.ok.injEq] at hb
  obtain ⟨rfl, rfl⟩ := hb
  obtain ⟨objects2, hend2, hb2, -, -, -, -, hload, -⟩ :=
    batch_completeness demoWorld demoQuotes
      ([Event.osOpen "quotes.csv", Event.stdout (.headers ["character", "quote"])]
        ++ [Event.stdout (.quotes demoQuotes)] ++ [Event.classCreate "PointBreakQuote"])
      (fun _ q _ _ hk _ _ => demoWorld_embeds q.Quote hk)
  have hval2 : buildObjectBatch demoWorld demoQuotes
        ([Event.osOpen "quotes.csv", Event.stdout (.headers ["character", "quote"])]
          ++ [Event.stdout (.quotes demoQuotes)] ++ [Event.classCreate "PointBreakQuote"])
      = (.ok [mkObject ⟨"Bodhi", "Vaya con Dios.", []⟩ [⟨1056964608⟩, ⟨1048576000⟩],
              mkObject ⟨"Johnny", "I am an F.B.I. agent.", []⟩ [⟨1056964608⟩]],
         (buildObjectBatch demoWorld demoQuotes
          ([Event.osOpen "quotes.csv", Event.stdout (.headers ["character", "quote"])]
            ++ [Event.stdout (.quotes demoQuotes)]
            ++ [Event.classCreate "PointBreakQuote"])).2) := rfl
  rw [hval2] at hb2
  simp only [Prod.mk.injEq, Except.ok.injEq] at hb2
  obtain ⟨rfl, rfl⟩ := hb2
  have hrun := hload ⟨⟨"localhost:8080", "http", "secret"⟩⟩ []
    [Event.osOpen "quotes.csv", Event.stdout (.headers ["character", "quote"])] rfl rfl rfl
  refine ⟨rfl, ?_, ?_, ?_, ?_⟩
  · exact congrArg Run.outcome
      (hdone ⟨⟨"localhost:8080", "http", "secret"⟩⟩ ⟨[none, none]⟩ rfl)
  · exact hwrite ⟨⟨"localhost:8080", "http", "secret"⟩⟩
  · exact hrun.2 ⟨[none, none]⟩ rfl
  · exact hrun.1

/-- C7, as the code has it: `buildObjectBatch` compares no lengths.  When it
succeeds, every object carries, unchanged, a vector that an embedding call
returned for one of the records; so all objects carry vectors of one length
`d` whenever every vector returned for these records has length `d`. -/
theorem buildObjectBatch_vectors_unchecked (w : World) (quotes : List PointBreakQuote)
    (h hend : List Event) (objects : List Object) (d : Nat)
    (hb : buildObjectBatch w quotes h = (.ok objects, hend)) :
    (∀ o ∈ objects, ∃ q ∈ quotes, ∃ hk hk2,
      vectorizeText w q.Quote hk = (.ok o.Vector, hk2)) ∧
    ((∀ q ∈ quotes, ∀ hk v hk2, vectorizeText w q.Quote hk = (.ok v, hk2) → v.length = d) →
      ∀ o ∈ objects, o.Vector.length = d) := by
  have hfirst : ∀ o ∈ objects, ∃ q ∈ quotes, ∃ hk hk2,
      vectorizeText w q.Quote hk = (.ok o.Vector, hk2) := by
    induction quotes generalizing h objects with
    | nil =>
      simp only [buildObjectBatch, Prod.mk.injEq, Except.ok.injEq] at hb
      obtain ⟨rfl, -⟩ := hb
      simp
    | cons q rest ih =>
      obtain ⟨v, hv, objs, hvt, hr, rfl⟩ := (buildObjectBatch_cons_ok w q rest h hend objects).1 hb
      intro o ho
      rcases List.mem_cons.1 ho with rfl | hmem
      · exact ⟨q, List.mem_cons_self _ _, h, hv, hvt⟩
      · obtain ⟨q2, hq2, hk, hk2, hvec⟩ := ih hv objs hr o hmem
        exact ⟨q2, List.mem_cons_of_mem _ hq2, hk, hk2, hvec⟩
  refine ⟨hfirst, ?_⟩
  intro hd o ho
  obtain ⟨q, hq, hk, hk2, hvec⟩ := hfirst o ho
  exact hd q hq hk o.Vector hk2 hvec

/-- C7 on the two records of the scenario in `demoWorld`: the batch succeeds,
and the theorem names, for the one-number vector of the second object, the
record and the embedding call it came from. -/
theorem buildObjectBatch_vectors_unchecked_witness :
    (buildObjectBatch demoWorld demoQuotes []).1
      = .ok [mkObject ⟨"Bodhi", "Vaya con Dios.", []⟩ [⟨1056964608⟩, ⟨1048576000⟩],
             mkObject ⟨"Johnny", "I am an F.B.I. agent.", []⟩ [⟨1056964608⟩]] ∧
    ∃ q ∈ demoQuotes, ∃ hk hk2,
      vectorizeText demoWorld q.Quote hk = (.ok [⟨1056964608⟩], hk2) :=
  ⟨rfl,
   (buildObjectBatch_vectors_unchecked demoWorld demoQuotes []
      (buildObjectBatch demoWorld demoQuotes []).2
      [mkObject ⟨"Bodhi", "Vaya con Dios.", []⟩ [⟨1056964608⟩, ⟨1048576000⟩],
       mkObject ⟨"Johnny", "I am an F.B.I. agent.", []⟩ [⟨1056964608⟩]] 0 rfl).1
      (mkObject ⟨"Johnny", "I am an F.B.I. agent.", []⟩ [⟨1056964608⟩])
      (List.mem_cons_of_mem _ (List.mem_cons_self _ _))⟩

/-- C7 as stated fails: the service returns two numbers for the first record
and one for the second, `buildObjectBatch` succeeds with objects whose vectors
have lengths 2 and 1, and the run of `main` with `-load` ends normally after
writing that batch. -/
theorem buildObjectBatch_mixed_lengths :
    (buildObjectBatch demoWorld demoQuotes []).1
      = .ok [mkObject ⟨"Bodhi", "Vaya con Dios.", []⟩ [⟨1056964608⟩, ⟨1048576000⟩],
             mkObject ⟨"Johnny", "I am an F.B.I. agent.", []⟩ [⟨1056964608⟩]] ∧
    (mkObject ⟨"Bodhi", "Vaya con Dios.", []⟩ [⟨1056964608⟩, ⟨1048576000⟩]).Vector.length
      ≠ (mkObject ⟨"Johnny", "I am an F.B.I. agent.", []⟩ [⟨1056964608⟩]).Vector.length ∧
    (main demoWorld true "Vaya con Dios.").outcome = .ok () ∧
    batchWrites (main demoWorld true "Vaya con Dios.").trace
      = [[mkObject ⟨"Bodhi", "Vaya con Dios.", []⟩ [⟨1056964608⟩, ⟨1048576000⟩],
          mkObject ⟨"Johnny", "I am an F.B.I. agent.", []⟩ [⟨1056964608⟩]]] :=
  ⟨rfl, by decide, rfl, rfl⟩

/-- C4, as the code has it: when the class creation reports any error, that
the class already exists included, the ingestion run ends in `log.Fatalf` with
`Error creating class: ` and the error; it makes no embedding call and submits
no batch. -/
theorem class_creation_error_is_fatal (w : World) (c : Client)
    (quotes : List PointBreakQuote) (h0 h1 : List Event) (e : GoError)
    (hcsv : fromCSVToQuotes w "quotes.csv" h0 = ⟨.ok (.ok quotes), h1⟩)
    (hexists : w.classCreate (h1 ++ [Event.stdout (.quotes quotes)]) "PointBreakQuote"
      = some e) :
    loadDataBlock w (some c) h0
      = ⟨.fatal ("Error creating class: " ++ e.msg),
         h1 ++ [Event.stdout (.quotes quotes)] ++ [Event.classCreate "PointBreakQuote"]⟩ ∧
    embedCalls (loadDataBlock w (some c) h0).trace = embedCalls h0 ∧
    batchWrites (loadDataBlock w (some c) h0).trace = batchWrites h0 := by
  have hrun : loadDataBlock w (some c) h0
      = ⟨.fatal ("Error creating class: " ++ e.msg),
         h1 ++ [Event.stdout (.quotes quotes)] ++ [Event.classCreate "PointBreakQuote"]⟩ := by
    unfold loadDataBlock
    rw [hcsv]
    simp only [createClassAndBatch, hexists]
  have he : embedCalls h1 = embedCalls h0 := by
    have := fromCSVToQuotes_embedCalls w "quotes.csv" h0
    rwa [hcsv] at this
  have hw : batchWrites h1 = batchWrites h0 := by
    have := fromCSVToQuotes_batchWrites w "quotes.csv" h0
    rwa [hcsv] at this
  refine ⟨hrun, ?_, ?_⟩
  · rw [hrun]
    simp [embedCalls_append, embedCalls, he]
  · rw [hrun]
    simp [batchWrites_append, batchWrites, hw]

/-- C4 in a world whose store already has the class: the ingestion run ends in
`log.Fatalf`. -/
theorem class_creation_error_is_fatal_witness :
    (loadDataBlock classExistsWorld (some ⟨⟨"localhost:8080", "http", "secret"⟩⟩) []).outcome
      = .fatal ("Error creating class: "
          ++ "status code: 422, error: class name PointBreakQuote already exists") :=
  congrArg Run.outcome
    (class_creation_error_is_fatal classExistsWorld ⟨⟨"localhost:8080", "http", "secret"⟩⟩
      demoQuotes [] (fromCSVToQuotes classExistsWorld "quotes.csv" []).trace
      ⟨"status code: 422, error: class name PointBreakQuote already exists"⟩ rfl rfl).1

/-- C4 as stated fails: the store reports that the class already exists and the
run of `main` with `-load` ends in `log.Fatalf` with no embedding call and no
batch written. -/
theorem class_exists_is_fatal :
    classExistsWorld.classCreate
        [Event.godotenvLoad, Event.newClient ⟨"localhost:8080", "http", "secret"⟩,
         Event.osOpen "quotes.csv", Event.stdout (.headers ["character", "quote"]),
         Event.stdout (.quotes demoQuotes)] "PointBreakQuote"
      = some ⟨"status code: 422, error: class name PointBreakQuote already exists"⟩ ∧
    main classExistsWorld true "Vaya con Dios."
      = ⟨.fatal ("Error creating class: status code: 422, "
            ++ "error: class name PointBreakQuote already exists"),
         [Event.godotenvLoad, Event.newClient ⟨"localhost:8080", "http", "secret"⟩,
          Event.osOpen "quotes.csv", Event.stdout (.headers ["character", "quote"]),
          Event.stdout (.quotes demoQuotes), Event.classCreate "PointBreakQuote"]⟩ ∧
    embedCalls (main classExistsWorld true "Vaya con Dios.").trace = [] ∧
    batchWrites (main classExistsWorld true "Vaya con Dios.").trace = [] :=
  ⟨rfl, rfl, rfl, rfl⟩

/-! ## Query -/

/-- Whatever the client, the query block sends exactly one embedding request,
for the query text. -/
theorem queryBlock_embedCalls (w : World) (client : Option Client) (query : String)
    (h : List Event) :
    embedCalls (queryBlock w client query h).trace
      = embedCalls h ++ [embedRequest w query h] := by
  have hec := vectorizeText_embedCalls w query h
  unfold queryBlock
  rcases hv : vectorizeText w query h with ⟨res, h1⟩
  rw [hv] at hec
  cases res with
  | error err => exact hec
  | ok vec =>
    dsimp only
    cases client with
    | none => exact hec
    | some c =>
      dsimp only
      cases w.graphqlGet h1 (nearVectorQuery vec) with
      | error err => simp [embedCalls_append, embedCalls, hec]
      | ok result =>
        dsimp only
        rcases hE : result.Errors with _ | ⟨_ | ⟨_ | e, es⟩⟩ <;>
          simp [embedCalls_append, embedCalls, hec]

/-- The query block after a successful embedding, with a client in hand. -/
theorem queryBlock_of_ok (w : World) (c : Client) (query : String) (h h1 : List Event)
    (vec : List F32) (hv : vectorizeText w query h = (.ok vec, h1)) :
    queryBlock w (some c) query h =
      match w.graphqlGet h1 (nearVectorQuery vec) with
      | .error err =>
        ⟨.fatal ("Error getting objects: " ++ err.msg),
          h1 ++ [Event.graphqlGet (nearVectorQuery vec)]⟩
      | .ok result =>
        match result.Errors with
        | some [] =>
          ⟨.crashed (indexOutOfRange 0 0), h1 ++ [Event.graphqlGet (nearVectorQuery vec)]⟩
        | some (none :: _) =>
          ⟨.crashed nilDereference, h1 ++ [Event.graphqlGet (nearVectorQuery vec)]⟩
        | some (some e :: _) =>
          ⟨.fatal ("GraphQL errors: " ++ e.Message),
            h1 ++ [Event.graphqlGet (nearVectorQuery vec)]⟩
        | none =>
          ⟨.ok (), h1 ++ [Event.graphqlGet (nearVectorQuery vec)]
            ++ [Event.stdout (.queryResult result)]⟩ := by
  simp only [queryBlock, hv]

theorem main_without_load (w : World) (query : String)
    (henv : w.godotenvLoad [] = none) :
    main w false query = queryBlock w (some ⟨mainConfig w⟩) query (mainStart w) := by
  simp only [main, henv, weaviateNewClient, Bool.false_eq_true, if_false]
  rfl

theorem main_with_load (w : World) (query : String)
    (henv : w.godotenvLoad [] = none) :
    main w true query =
      match loadDataBlock w (some ⟨mainConfig w⟩) (mainStart w) with
      | ⟨.ok (), h3⟩ => queryBlock w (some ⟨mainConfig w⟩) query h3
      | stopped => stopped := by
  simp only [main, henv, weaviateNewClient, if_true]
  rfl

/-- Every run of `main` that reaches the query block reaches it with a client:
the run ends at `godotenv.Load`, or inside the load block, or it is the query
block run with a non-nil client. -/
theorem main_reaches_query_with_client (w : World) (loadData : Bool) (query : String) :
    main w loadData query = ⟨.fatal "Error loading .env file", [Event.godotenvLoad]⟩ ∨
    (loadData = true ∧ ∃ c h0, main w loadData query = loadDataBlock w (some c) h0 ∧
      (loadDataBlock w (some c) h0).outcome ≠ .ok ()) ∨
    ∃ c h0, main w loadData query = queryBlock w (some c) query h0 := by
  cases henv : w.godotenvLoad [] with
  | some e =>
    left
    simp only [main, henv]
  | none =>
    right
    cases loadData with
    | false => exact Or.inr ⟨⟨mainConfig w⟩, mainStart w, main_without_load w query henv⟩
    | true =>
      rw [main_with_load w query henv]
      rcases hl : loadDataBlock w (some ⟨mainConfig w⟩) (mainStart w) with ⟨out, h3⟩
      cases out with
      | ok u => exact Or.inr ⟨⟨mainConfig w⟩, h3, rfl⟩
      | fatal m =>
        refine Or.inl ⟨rfl, ⟨mainConfig w⟩, mainStart w, ?_, ?_⟩
        · rw [hl]
        · rw [hl]
          simp
      | crashed m =>
        refine Or.inl ⟨rfl, ⟨mainConfig w⟩, mainStart w, ?_, ?_⟩
        · rw [hl]
        · rw [hl]
          simp


/-- C3: the query run.  Every run of `main` that reaches the query does so with
a non-nil store client.  With a client in hand the query block sends exactly one
embedding request, for the query text.  When the embedding fails, the run ends
in `log.Fatalf` and no search is issued.  When it succeeds with `v`, exactly
one search is issued: class `PointBreakQuote`, field `quote`, field
`_additional` with `certainty` and `distance`, near vector `v`, no limit.  A
search error ends the run in `log.Fatalf`; so does a GraphQL error at the head
of the result's error list, with its message.  A result whose error list is
not nil never lets the run end normally: an empty list or a nil first entry
panics at `result.Errors[0].Message`.  A result without errors is printed. -/
theorem queryBlock_pipeline (w : World) (c : Client) (query : String) (h : List Event) :
    (∀ loadData,
      main w loadData query = ⟨.fatal "Error loading .env file", [Event.godotenvLoad]⟩ ∨
      (loadData = true ∧ ∃ c0 h0, main w loadData query = loadDataBlock w (some c0) h0 ∧
        (loadDataBlock w (some c0) h0).outcome ≠ .ok ()) ∨
      ∃ c0 h0, main w loadData query = queryBlock w (some c0) query h0) ∧
    embedCalls (queryBlock w (some c) query h).trace
      = embedCalls h ++ [embedRequest w query h] ∧
    (∀ e h1, vectorizeText w query h = (.error e, h1) →
      queryBlock w (some c) query h = ⟨.fatal ("Error vectorizing text: " ++ e.msg), h1⟩ ∧
      searches (queryBlock w (some c) query h).trace = searches h) ∧
    (∀ v h1, vectorizeText w query h = (.ok v, h1) →
      searches (queryBlock w (some c) query h).trace
        = searches h ++
          [{ ClassName := "PointBreakQuote",
             Fields := [{ Name := "quote", Fields := [] },
                        { Name := "_additional", Fields := ["certainty", "distance"] }],
             NearVector := v,
             Limit := none }] ∧
      (∀ e, w.graphqlGet h1 (nearVectorQuery v) = .error e →
        (queryBlock w (some c) query h).outcome
          = .fatal ("Error getting objects: " ++ e.msg)) ∧
      (∀ result e es, w.graphqlGet h1 (nearVectorQuery v) = .ok result →
        result.Errors = some (some e :: es) →
        (queryBlock w (some c) query h).outcome
          = .fatal ("GraphQL errors: " ++ e.Message)) ∧
      (∀ result, w.graphqlGet h1 (nearVectorQuery v) = .ok result →
        result.Errors ≠ none →
        (queryBlock w (some c) query h).outcome ≠ .ok ()) ∧
      (∀ result, w.graphqlGet h1 (nearVectorQuery v) = .ok result →
        result.Errors = none →
        queryBlock w (some c) query h
          = ⟨.ok (), h1 ++ [Event.graphqlGet (nearVectorQuery v)]
              ++ [Event.stdout (.queryResult result)]⟩)) := by
  refine ⟨fun loadData => main_reaches_query_with_client w loadData query,
    queryBlock_embedCalls w (some c) query h, ?_, ?_⟩
  · intro e h1 hv
    have hrun : queryBlock w (some c) query h
        = ⟨.fatal ("Error vectorizing text: " ++ e.msg), h1⟩ := by
      simp only [queryBlock, hv]
    refine ⟨hrun, ?_⟩
    rw [hrun]
    have := vectorizeText_searches w query h
    rwa [hv] at this
  · intro v h1 hv
    have hsc := vectorizeText_searches w query h
    rw [hv] at hsc
    have hrun := queryBlock_of_ok w c query h h1 v hv
    refine ⟨?_, ?_, ?_, ?_, ?_⟩
    · rw [hrun]
      cases w.graphqlGet h1 (nearVectorQuery v) with
      | error err => simp [searches_append, searches, hsc, nearVectorQuery]
      | ok result =>
        dsimp only
        rcases hE : result.Errors with _ | ⟨_ | ⟨_ | e, es⟩⟩ <;>
          simp [searches_append, searches, hsc, nearVectorQuery]
    · intro e he
      rw [hrun, he]
    · intro result e es hres hE
      rw [hrun, hres]
      simp only [hE]
    · intro result hres hE
      rw [hrun, hres]
      dsimp only
      rcases hE2 : result.Errors with _ | ⟨_ | ⟨_ | e, es⟩⟩
      · exact absurd hE2 hE
      · simp
      · simp
      · simp
    · intro result hres hE
      rw [hrun, hres]
      simp only [hE]

/-- C3 in `demoWorld` and in a world whose search result carries a GraphQL
error: one search with the vector of the query, and a fatal end on the GraphQL
error. -/
theorem queryBlock_pipeline_witness :
    searches (queryBlock demoWorld (some ⟨⟨"localhost:8080", "http", "secret"⟩⟩)
        "Vaya con Dios." []).trace
      = [{ ClassName := "PointBreakQuote",
           Fields := [{ Name := "quote", Fields := [] },
                      { Name := "_additional", Fields := ["certainty", "distance"] }],
           NearVector := [⟨1056964608⟩, ⟨1048576000⟩],
           Limit := none }] ∧
    (queryBlock graphqlErrorWorld (some ⟨⟨"localhost:8080", "http", "secret"⟩⟩)
        "Vaya con Dios." []).outcome
      = .fatal ("GraphQL errors: " ++ "no such class with name PointBreakQuote") ∧
    (queryBlock searchDownWorld (some ⟨⟨"localhost:8080", "http", "secret"⟩⟩)
        "Vaya con Dios." []).outcome
      = .fatal ("Error getting objects: " ++ "connection refused") ∧
    queryBlock refusedWorld (some ⟨⟨"localhost:8080", "http", "secret"⟩⟩) "Vaya con Dios." []
      = ⟨.fatal ("Error vectorizing text: "
            ++ "error making request: dial tcp: connection refused"),
         (vectorizeText refusedWorld "Vaya con Dios." []).2⟩ :=
  ⟨((queryBlock_pipeline demoWorld ⟨⟨"localhost:8080", "http", "secret"⟩⟩
      "Vaya con Dios." []).2.2.2 [⟨1056964608⟩, ⟨1048576000⟩] _ rfl).1,
   ((queryBlock_pipeline graphqlErrorWorld ⟨⟨"localhost:8080", "http", "secret"⟩⟩
      "Vaya con Dios." []).2.2.2 [⟨1056964608⟩, ⟨1048576000⟩] _ rfl).2.2.1
      { Data := "", Errors := some [some ⟨"no such class with name PointBreakQuote"⟩] }
      ⟨"no such class with name PointBreakQuote"⟩ [] rfl rfl,
   ((queryBlock_pipeline searchDownWorld ⟨⟨"localhost:8080", "http", "secret"⟩⟩
      "Vaya con Dios." []).2.2.2 [⟨1056964608⟩, ⟨1048576000⟩] _ rfl).2.1
      ⟨"connection refused"⟩ rfl,
   ((queryBlock_pipeline refusedWorld ⟨⟨"localhost:8080", "http", "secret"⟩⟩
      "Vaya con Dios." []).2.2.1
      ⟨"error making request: dial tcp: connection refused"⟩ _ rfl).1⟩


/-! ## Fatal on first error -/

theorem noStepFails_append (w : World) (h a b : List Event) :
    noStepFails w h (a ++ b) = (noStepFails w h a && noStepFails w (h ++ a) b) := by
  induction a generalizing h with
  | nil => simp [noStepFails]
  | cons e rest ih =>
    show noStepFails w h (e :: (rest ++ b)) = _
    simp only [noStepFails, ih, Bool.and_assoc, List.append_assoc, List.singleton_append]

theorem stopsAtFirstError_append (w : World) (h a b : List Event)
    (ha : noStepFails w h a = true) :
    stopsAtFirstError w h (a ++ b) = stopsAtFirstError w (h ++ a) b := by
  induction a generalizing h with
  | nil => simp
  | cons e rest ih =>
    simp only [noStepFails, Bool.and_eq_true, Bool.not_eq_true'] at ha
    show stopsAtFirstError w h (e :: (rest ++ b)) = _
    simp only [stopsAtFirstError, ha.1, Bool.false_eq_true, if_false]
    rw [ih _ ha.2, List.append_assoc, List.singleton_append]

theorem isPrint_not_fails (w : World) (pre : List Event) (ev : Event)
    (hp : isPrint ev = true) : stepFails w pre ev = false := by
  cases ev <;> simp [isPrint] at hp
  rfl

/-- In a trace that stops at its first error, a step that reports an error is
that first one: no step before it reports an error and only printing follows. -/
theorem stopsAtFirstError_at (w : World) (h a post : List Event) (ev : Event)
    (hstop : stopsAtFirstError w h (a ++ ev :: post) = true)
    (hfail : stepFails w (h ++ a) ev = true) :
    post.all isPrint = true ∧ noStepFails w h a = true := by
  induction a generalizing h with
  | nil =>
    simp only [List.nil_append, stopsAtFirstError, List.append_nil] at hstop hfail
    rw [hfail] at hstop
    exact ⟨by simpa using hstop, rfl⟩
  | cons x rest ih =>
    replace hstop : stopsAtFirstError w h (x :: (rest ++ ev :: post)) = true := hstop
    simp only [stopsAtFirstError] at hstop
    cases hx : stepFails w h x with
    | true =>
      rw [hx] at hstop
      simp only [if_true, List.all_append, List.all_cons, Bool.and_eq_true] at hstop
      have hev := isPrint_not_fails w (h ++ x :: rest) ev hstop.2.1
      rw [hev] at hfail
      exact absurd hfail (by simp)
    | false =>
      rw [hx] at hstop
      simp only [Bool.false_eq_true, if_false] at hstop
      have hfail2 : stepFails w (h ++ [x] ++ rest) ev = true := by
        rw [List.append_assoc, List.singleton_append]
        exact hfail
      obtain ⟨hp, hc⟩ := ih (h ++ [x]) hstop hfail2
      exact ⟨hp, by simp [noStepFails, hx, hc]⟩

/-- In a trace in which no step reports an error, none does. -/
theorem noStepFails_at (w : World) (h a post : List Event) (ev : Event)
    (hclean : noStepFails w h (a ++ ev :: post) = true) :
    stepFails w (h ++ a) ev = false := by
  rw [noStepFails_append] at hclean
  simp only [noStepFails, Bool.and_eq_true, Bool.not_eq_true'] at hclean
  exact hclean.2.1

theorem quiet_of_all_isPrint (post : List Event) (hp : post.all isPrint = true) :
    embedCalls post = [] ∧ batchWrites post = [] ∧ searches post = [] := by
  induction post with
  | nil => exact ⟨rfl, rfl, rfl⟩
  | cons e rest ih =>
    simp only [List.all_cons, Bool.and_eq_true] at hp
    obtain ⟨h1, h2, h3⟩ := ih hp.2
    cases e <;> simp [isPrint] at hp
    exact ⟨by simp [embedCalls, h1], by simp [batchWrites, h2], by simp [searches, h3]⟩

theorem Judged.of_prefix {α : Type} (w : World) (h a : List Event) (r : Run α)
    (ha : noStepFails w h a = true) (hr : Judged w (h ++ a) r) : Judged w h r := by
  obtain ⟨new, htr, hcase⟩ := hr
  refine ⟨a ++ new, by rw [htr, List.append_assoc], ?_⟩
  rcases hcase with ⟨hf, hc⟩ | ⟨hf, hs⟩
  · exact Or.inl ⟨hf, by rw [noStepFails_append, ha, hc]; rfl⟩
  · exact Or.inr ⟨hf, by rw [stopsAtFirstError_append w h a new ha]; exact hs⟩

/-- The steps of `vectorizeText`: it returns a vector when the request and the
decoding succeed, and an error right after the step that fails. -/
theorem vectorizeText_steps (w : World) (inputs : String) (h : List Event) :
    ∃ new, (vectorizeText w inputs h).2 = h ++ new ∧
      (((∃ v, (vectorizeText w inputs h).1 = .ok v) ∧ noStepFails w h new = true) ∨
       ((∃ e, (vectorizeText w inputs h).1 = .error e) ∧
          stopsAtFirstError w h new = true)) := by
  have heq := vectorizeText_eq w inputs h
  cases hdo : w.httpDo h (embedRequest w inputs h) with
  | error err =>
    rw [hdo] at heq
    rw [heq]
    refine ⟨[Event.httpDo (embedRequest w inputs h)], rfl, Or.inr ⟨⟨_, rfl⟩, ?_⟩⟩
    simp [stopsAtFirstError, stepFails, hdo]
  | ok resp =>
    rw [hdo] at heq
    cases hd : w.jsonDecode resp.Body with
    | error err =>
      simp only [hd] at heq
      rw [heq]
      refine ⟨[Event.httpDo (embedRequest w inputs h), statusLine resp], by simp,
        Or.inr ⟨⟨_, rfl⟩, ?_⟩⟩
      simp [stopsAtFirstError, stepFails, hdo, hd, statusLine, isPrint]
    | ok data =>
      simp only [hd] at heq
      rw [heq]
      refine ⟨[Event.httpDo (embedRequest w inputs h), statusLine resp], by simp,
        Or.inl ⟨⟨_, rfl⟩, ?_⟩⟩
      simp [noStepFails, stepFails, hdo, hd, statusLine]

theorem buildObjectBatch_steps (w : World) (quotes : List PointBreakQuote)
    (h : List Event) :
    ∃ new, (buildObjectBatch w quotes h).2 = h ++ new ∧
      (((∃ objs, (buildObjectBatch w quotes h).1 = .ok objs) ∧
          noStepFails w h new = true) ∨
       ((∃ e, (buildObjectBatch w quotes h).1 = .error e) ∧
          stopsAtFirstError w h new = true)) := by
  induction quotes generalizing h with
  | nil => exact ⟨[], by simp [buildObjectBatch], Or.inl ⟨⟨[], rfl⟩, rfl⟩⟩
  | cons q rest ih =>
    obtain ⟨new1, ht1, hcase1⟩ := vectorizeText_steps w q.Quote h
    rcases hv : vectorizeText w q.Quote h with ⟨res, h1⟩
    rw [hv] at ht1 hcase1
    simp only at ht1 hcase1
    cases res with
    | error err =>
      rw [buildObjectBatch_cons_of_error w q rest h h1 err hv]
      rcases hcase1 with ⟨⟨v, hv2⟩, -⟩ | ⟨-, hs⟩
      · simp at hv2
      · exact ⟨new1, ht1, Or.inr ⟨⟨err, rfl⟩, hs⟩⟩
    | ok vector =>
      rw [buildObjectBatch_cons_of_ok w q rest h h1 vector hv]
      have hc1 : noStepFails w h new1 = true := by
        rcases hcase1 with ⟨-, hc⟩ | ⟨⟨e, he⟩, -⟩
        · exact hc
        · simp at he
      obtain ⟨new2, ht2, hcase2⟩ := ih h1
      rcases hb : buildObjectBatch w rest h1 with ⟨res2, h2⟩
      rw [hb] at ht2 hcase2
      simp only at ht2 hcase2
      subst ht1
      cases res2 with
      | error err =>
        refine ⟨new1 ++ new2, by simp [ht2], Or.inr ⟨⟨err, rfl⟩, ?_⟩⟩
        rcases hcase2 with ⟨⟨o, ho⟩, -⟩ | ⟨-, hs⟩
        · simp at ho
        · rw [stopsAtFirstError_append w h new1 new2 hc1]
          exact hs
      | ok objs =>
        refine ⟨new1 ++ new2, by simp [ht2], Or.inl ⟨⟨_, rfl⟩, ?_⟩⟩
        rcases hcase2 with ⟨-, hc⟩ | ⟨⟨e, he⟩, -⟩
        · rw [noStepFails_append, hc1, hc]
          rfl
        · simp at he


theorem quotesOfRecords_isFatal (records : List (List String)) :
    (quotesOfRecords records).isFatal = false := by
  induction records with
  | nil => rfl
  | cons record rest ih =>
    rcases record with _ | ⟨c, _ | ⟨q, tl⟩⟩
    · rfl
    · rfl
    · simp only [quotesOfRecords]
      cases hq : quotesOfRecords rest with
      | ok quotes => rfl
      | fatal m => rw [hq] at ih; simp [Outcome.isFatal] at ih
      | crashed m => rfl

/-- The steps of `fromCSVToQuotes`: an error is returned right after the file
fails to open or to read; otherwise no step reports an error. -/
theorem fromCSVToQuotes_steps (w : World) (filepath : String) (h : List Event) :
    ∃ new, (fromCSVToQuotes w filepath h).trace = h ++ new ∧
      (((∃ e, (fromCSVToQuotes w filepath h).outcome = .ok (.error e)) ∧
          stopsAtFirstError w h new = true) ∨
       (((∃ quotes, (fromCSVToQuotes w filepath h).outcome = .ok (.ok quotes)) ∨
          (∃ m, (fromCSVToQuotes w filepath h).outcome = .crashed m)) ∧
          noStepFails w h new = true)) := by
  unfold fromCSVToQuotes
  cases hopen : w.osOpen h filepath with
  | error err =>
    refine ⟨[Event.osOpen filepath], rfl, Or.inl ⟨⟨err, rfl⟩, ?_⟩⟩
    simp [stopsAtFirstError, stepFails, hopen]
  | ok content =>
    dsimp only
    rcases hread : (csvNewReader content).Read with ⟨⟨headers, err⟩, reader1⟩
    cases err with
    | some e =>
      refine ⟨[Event.osOpen filepath, Event.stdout (.headers headers)], by simp,
        Or.inl ⟨⟨_, rfl⟩, ?_⟩⟩
      simp [stopsAtFirstError, stepFails, hopen, csvReadFails, hread, isPrint]
    | none =>
      dsimp only
      cases hall : reader1.ReadAll with
      | error e =>
        refine ⟨[Event.osOpen filepath, Event.stdout (.headers headers)], by simp,
          Or.inl ⟨⟨_, rfl⟩, ?_⟩⟩
        simp [stopsAtFirstError, stepFails, hopen, csvReadFails, hread, hall, isPrint]
      | ok records =>
        dsimp only
        have hclean : noStepFails w h
            [Event.osOpen filepath, Event.stdout (.headers headers)] = true := by
          simp [noStepFails, stepFails, hopen, csvReadFails, hread, hall]
        have hnf := quotesOfRecords_isFatal records
        cases hq : quotesOfRecords records with
        | ok quotes =>
          exact ⟨_, by simp, Or.inr ⟨Or.inl ⟨quotes, rfl⟩, hclean⟩⟩
        | fatal m =>
          rw [hq] at hnf
          simp [Outcome.isFatal] at hnf
        | crashed m =>
          exact ⟨_, by simp, Or.inr ⟨Or.inr ⟨m, rfl⟩, hclean⟩⟩

theorem batchObjects_judged (w : World) (c : Client) (quotes : List PointBreakQuote)
    (h : List Event) : Judged w h (batchObjects w c quotes h) := by
  obtain ⟨new, ht, hcase⟩ := buildObjectBatch_steps w quotes h
  rcases hb : buildObjectBatch w quotes h with ⟨res, h1⟩
  rw [hb] at ht hcase
  simp only at ht hcase
  subst ht
  cases res with
  | error err =>
    rw [batchObjects_of_error w c quotes h _ err hb]
    rcases hcase with ⟨⟨o, ho⟩, -⟩ | ⟨-, hs⟩
    · simp at ho
    · exact ⟨new, rfl, Or.inr ⟨rfl, hs⟩⟩
  | ok objects =>
    have hc : noStepFails w h new = true := by
      rcases hcase with ⟨-, hc⟩ | ⟨⟨e, he⟩, -⟩
      · exact hc
      · simp at he
    rw [batchObjects_of_ok w c quotes h _ objects hb]
    apply Judged.of_prefix w h new _ hc
    cases hres : w.objectsBatch (h ++ new) objects with
    | error err =>
      refine ⟨[Event.objectsBatch objects], rfl, Or.inr ⟨rfl, ?_⟩⟩
      simp [stopsAtFirstError, stepFails, hres]
    | ok result =>
      refine ⟨[Event.objectsBatch objects, Event.stdout (.batchResult result)], by simp,
        Or.inl ⟨rfl, ?_⟩⟩
      simp [noStepFails, stepFails, hres]

theorem createClassAndBatch_judged (w : World) (client : Option Client)
    (quotes : List PointBreakQuote) (h : List Event) :
    Judged w h (createClassAndBatch w client quotes h) := by
  unfold createClassAndBatch
  cases client with
  | none => exact ⟨[], by simp, Or.inl ⟨rfl, rfl⟩⟩
  | some c =>
    dsimp only
    cases hcc : w.classCreate h "PointBreakQuote" with
    | some err =>
      refine ⟨[Event.classCreate "PointBreakQuote"], rfl, Or.inr ⟨rfl, ?_⟩⟩
      simp [stopsAtFirstError, stepFails, hcc]
    | none =>
      apply Judged.of_prefix w h [Event.classCreate "PointBreakQuote"] _
        (by simp [noStepFails, stepFails, hcc])
      exact batchObjects_judged w c quotes _

theorem loadDataBlock_judged (w : World) (client : Option Client) (h : List Event) :
    Judged w h (loadDataBlock w client h) := by
  obtain ⟨new, ht, hcase⟩ := fromCSVToQuotes_steps w "quotes.csv" h
  unfold loadDataBlock
  rcases hcsv : fromCSVToQuotes w "quotes.csv" h with ⟨out, h1⟩
  rw [hcsv] at ht hcase
  simp only at ht hcase
  subst ht
  cases out with
  | fatal m =>
    rcases hcase with ⟨⟨e, he⟩, -⟩ | ⟨⟨q, hq⟩ | ⟨m2, hm⟩, -⟩ <;> simp_all
  | crashed m =>
    rcases hcase with ⟨⟨e, he⟩, -⟩ | ⟨-, hc⟩
    · simp at he
    · exact ⟨new, rfl, Or.inl ⟨rfl, hc⟩⟩
  | ok res =>
    cases res with
    | error err =>
      rcases hcase with ⟨-, hs⟩ | ⟨⟨q, hq⟩ | ⟨m2, hm⟩, -⟩
      · exact ⟨new, rfl, Or.inr ⟨rfl, hs⟩⟩
      · simp at hq
      · simp at hm
    | ok quotes =>
      have hc : noStepFails w h new = true := by
        rcases hcase with ⟨⟨e, he⟩, -⟩ | ⟨-, hc⟩
        · simp at he
        · exact hc
      dsimp only
      have hc2 : noStepFails w h (new ++ [Event.stdout (.quotes quotes)]) = true := by
        rw [noStepFails_append, hc]
        simp [noStepFails, stepFails]
      have := Judged.of_prefix w h (new ++ [Event.stdout (.quotes quotes)]) _ hc2
        (createClassAndBatch_judged w client quotes
          (h ++ (new ++ [Event.stdout (.quotes quotes)])))
      rw [← List.append_assoc] at this
      exact this

theorem queryBlock_judged (w : World) (client : Option Client) (query : String)
    (h : List Event) : Judged w h (queryBlock w client query h) := by
  obtain ⟨new, ht, hcase⟩ := vectorizeText_steps w query h
  unfold queryBlock
  rcases hv : vectorizeText w query h with ⟨res, h1⟩
  rw [hv] at ht hcase
  simp only at ht hcase
  subst ht
  cases res with
  | error err =>
    rcases hcase with ⟨⟨v, hv2⟩, -⟩ | ⟨-, hs⟩
    · simp at hv2
    · exact ⟨new, rfl, Or.inr ⟨rfl, hs⟩⟩
  | ok vec =>
    have hc : noStepFails w h new = true := by
      rcases hcase with ⟨-, hc⟩ | ⟨⟨e, he⟩, -⟩
      · exact hc
      · simp at he
    dsimp only
    cases client with
    | none => exact ⟨new, rfl, Or.inl ⟨rfl, hc⟩⟩
    | some c =>
      dsimp only
      apply Judged.of_prefix w h new _ hc
      cases hres : w.graphqlGet (h ++ new) (nearVectorQuery vec) with
      | error err =>
        refine ⟨[Event.graphqlGet (nearVectorQuery vec)], rfl, Or.inr ⟨rfl, ?_⟩⟩
        simp [stopsAtFirstError, stepFails, hres]
      | ok result =>
        dsimp only
        rcases hE : result.Errors with _ | ⟨_ | ⟨_ | e, es⟩⟩
        · refine ⟨[Event.graphqlGet (nearVectorQuery vec),
            Event.stdout (.queryResult result)], by simp, Or.inl ⟨rfl, ?_⟩⟩
          simp [noStepFails, stepFails, hres, hE]
        · refine ⟨[Event.graphqlGet (nearVectorQuery vec)], rfl, Or.inl ⟨rfl, ?_⟩⟩
          simp [noStepFails, stepFails, hres, hE]
        · refine ⟨[Event.graphqlGet (nearVectorQuery vec)], rfl, Or.inl ⟨rfl, ?_⟩⟩
          simp [noStepFails, stepFails, hres, hE]
        · refine ⟨[Event.graphqlGet (nearVectorQuery vec)], rfl, Or.inr ⟨rfl, ?_⟩⟩
          simp [stopsAtFirstError, stepFails, hres, hE]

theorem main_judged (w : World) (loadData : Bool) (query : String) :
    Judged w [] (main w loadData query) := by
  cases henv : w.godotenvLoad [] with
  | some e =>
    have hm : main w loadData query
        = ⟨.fatal "Error loading .env file", [Event.godotenvLoad]⟩ := by
      simp only [main, henv]
    rw [hm]
    refine ⟨[Event.godotenvLoad], rfl, Or.inr ⟨rfl, ?_⟩⟩
    simp [stopsAtFirstError, stepFails, henv]
  | none =>
    have hstart : noStepFails w [] (mainStart w) = true := by
      simp [mainStart, noStepFails, stepFails, henv, weaviateNewClient]
    apply Judged.of_prefix w [] (mainStart w) _ hstart
    rw [List.nil_append]
    cases loadData with
    | false =>
      rw [main_without_load w query henv]
      exact queryBlock_judged w _ query _
    | true =>
      rw [main_with_load w query henv]
      have hl := loadDataBlock_judged w (some ⟨mainConfig w⟩) (mainStart w)
      rcases hrun : loadDataBlock w (some ⟨mainConfig w⟩) (mainStart w) with ⟨out, h3⟩
      rw [hrun] at hl
      cases out with
      | fatal m => exact hl
      | crashed m => exact hl
      | ok u =>
        dsimp only
        obtain ⟨new, ht, hcase⟩ := hl
        simp only at ht
        subst ht
        have hc : noStepFails w (mainStart w) new = true := by
          rcases hcase with ⟨-, hc⟩ | ⟨hf, -⟩
          · exact hc
          · simp [Outcome.isFatal] at hf
        exact Judged.of_prefix w (mainStart w) new _ hc (queryBlock_judged w _ query _)

/-- C9: in every run of `main`, a step that reports an error (loading the
environment, creating the store client, opening or reading the CSV file,
creating the class, an embedding request or the decoding of its body, the
batch write, the search or a GraphQL error at the head of its result) ends the
run in `log.Fatal`; it is the first step to report one, and only printing
follows it: no embedding call, no batch write, no search.  For the
configuration `main` builds, `weaviate.NewClient` has no failing case, so the
branch that prints its error and goes on is never taken. -/
theorem main_fatal_on_first_error (w : World) (loadData : Bool) (query : String)
    (pre post : List Event) (ev : Event)
    (htrace : (main w loadData query).trace = pre ++ ev :: post)
    (hfail : stepFails w pre ev = true) :
    (∃ msg, (main w loadData query).outcome = .fatal msg) ∧
    post.all isPrint = true ∧
    embedCalls post = [] ∧ batchWrites post = [] ∧ searches post = [] ∧
    noStepFails w [] pre = true := by
  obtain ⟨new, ht, hcase⟩ := main_judged w loadData query
  rw [List.nil_append] at ht
  rw [ht] at htrace
  subst htrace
  rcases hcase with ⟨-, hc⟩ | ⟨hf, hs⟩
  · have := noStepFails_at w [] pre post ev hc
    rw [List.nil_append, hfail] at this
    exact absurd this (by simp)
  · obtain ⟨hp, hclean⟩ := stopsAtFirstError_at w [] pre post ev hs
      (by rw [List.nil_append]; exact hfail)
    obtain ⟨q1, q2, q3⟩ := quiet_of_all_isPrint post hp
    refine ⟨?_, hp, q1, q2, q3, hclean⟩
    cases hout : (main w loadData query).outcome with
    | fatal m => exact ⟨m, rfl⟩
    | ok u => rw [hout] at hf; simp [Outcome.isFatal] at hf
    | crashed m => rw [hout] at hf; simp [Outcome.isFatal] at hf

/-- C9 in a world whose embedding service returns a body that does not decode:
the run with `-load` reaches the embedding request for the first record, that
step reports an error, the run ends in `log.Fatalf`, and only the status line
follows the request. -/
theorem main_fatal_on_first_error_witness :
    (main shortBodyWorld true "Vaya con Dios.").trace
      = [Event.godotenvLoad, Event.newClient ⟨"localhost:8080", "http", "secret"⟩,
         Event.osOpen "quotes.csv", Event.stdout (.headers ["character", "quote"]),
         Event.stdout (.quotes demoQuotes), Event.classCreate "PointBreakQuote"]
        ++ Event.httpDo (embedRequest shortBodyWorld "Vaya con Dios." [])
        :: [Event.stdout (.text
              "Hugging Face Feature Extraction Response Status: 503 Service Unavailable")] ∧
    (∃ msg, (main shortBodyWorld true "Vaya con Dios.").outcome = .fatal msg) ∧
    batchWrites [Event.stdout (.text
      "Hugging Face Feature Extraction Response Status: 503 Service Unavailable")] = [] ∧
    searches (main shortBodyWorld true "Vaya con Dios.").trace = [] := by
  have key := main_fatal_on_first_error shortBodyWorld true "Vaya con Dios."
    [Event.godotenvLoad, Event.newClient ⟨"localhost:8080", "http", "secret"⟩,
     Event.osOpen "quotes.csv", Event.stdout (.headers ["character", "quote"]),
     Event.stdout (.quotes demoQuotes), Event.classCreate "PointBreakQuote"]
    [Event.stdout
      (.text "Hugging Face Feature Extraction Response Status: 503 Service Unavailable")]
    (Event.httpDo (embedRequest shortBodyWorld "Vaya con Dios." []))
    rfl rfl
  exact ⟨rfl, key.1, key.2.2.2.1, rfl⟩

/-- The sibling path of C5 on a file whose header row has two columns and whose
second data row has one: an error is returned. -/
theorem fromCSVToQuotes_short_row_error_example :
    (fromCSVToQuotes shortRowWorld "quotes.csv" []).outcome
      = .ok (.error ⟨"record on line 3: wrong number of fields"⟩) := rfl

end WeaviatePoc
